import Mathlib

/-
  Verification development for the images-batch-pdf repository.

  The repository consists of five Node.js scripts sharing most of their
  logic: epub-converter.js (ImageToEpubConverter), gen-lote-epub.js
  (MergeEpubConverter), the batch PDF converter (ImageToPdfConverter,
  proccess.js), the single PDF converter (gen-pdf variant), merge-pdf.js
  (MergePdfConverter) and analizer.js.  Below, the pure computational
  parts of those scripts (string manipulation, CSV parsing, sorting,
  navigation-map construction) are embedded as executable Lean
  functions, and the effectful pipelines (directory validation, batch
  loops, output writing) are embedded as explicit state passing over a
  small filesystem model.

  Strings are modelled as lists of characters so that the character
  loops of the source translate to structural recursion.
-/

abbrev Str := List Char

/-- Converts a Lean string literal to the character-list representation. -/
def strL (s : String) : Str := s.data

/-- Character class removed by JavaScript String.prototype.trim: the ECMA
WhiteSpace and LineTerminator code points. -/
def jsWhitespace (c : Char) : Bool :=
  c == ' ' || c == '\t' || c == '\n' || c == '\r' ||
  c.val == 11 || c.val == 12 || c.val == 0xA0 || c.val == 0x1680 ||
  (0x2000 ≤ c.val && c.val ≤ 0x200A) ||
  c.val == 0x2028 || c.val == 0x2029 || c.val == 0x202F ||
  c.val == 0x205F || c.val == 0x3000 || c.val == 0xFEFF

/-- Model of JavaScript String.prototype.trim. -/
def jsTrim (s : Str) : Str :=
  ((s.dropWhile jsWhitespace).reverse.dropWhile jsWhitespace).reverse

/-- Model of JavaScript str.split with a newline separator: the result
always has at least one element, and splitting the empty string yields a
single empty piece. -/
def splitLines : Str → List Str
  | [] => [[]]
  | c :: cs =>
    if c = '\n' then [] :: splitLines cs
    else
      match splitLines cs with
      | [] => [[c]]
      | l :: ls => (c :: l) :: ls

/-- Model of String.prototype.toLowerCase, adequate for the ASCII tokens
(nome, caminho, file extensions) the sources compare against. -/
def lowerStr (s : Str) : Str := s.map Char.toLower

/-- Model of String.prototype.includes: substring containment. -/
def includesSub (s pat : Str) : Bool :=
  s.tails.any (fun t => pat.isPrefixOf t)

/-- One parsed CSV entry: output document name and source folder path
(fields nome and caminho in the source). -/
structure CsvEntry where
  nome : Str
  caminho : Str
deriving DecidableEq, Repr

/-- The two data-level failures of readCsvFile, named as in the
specification: the empty-content check and the no-valid-entries check. -/
inductive CsvError where
  | emptyInputError
  | noValidEntriesError
deriving DecidableEq, Repr

/-- Character loop of parseCsvLine: a double quote toggles the in-quotes
state and is dropped, a semicolon outside quotes ends the current field,
any other character is appended to the current field. -/
def parseCsvLineGo : Str → Str → Bool → List Str
  | [], cur, _ => [cur]
  | c :: cs, cur, inQuotes =>
    if c = '"' then parseCsvLineGo cs cur (!inQuotes)
    else if c = ';' ∧ inQuotes = false then cur :: parseCsvLineGo cs [] false
    else parseCsvLineGo cs (cur ++ [c]) inQuotes

/-- Embedding of parseCsvLine, identical in all four converter classes. -/
def parseCsvLine (line : Str) : List Str :=
  parseCsvLineGo line [] false

/-- Line loop of readCsvFile: trims each line, skips blank lines, skips a
first line containing both nome and caminho (case-insensitively), skips
lines with fewer than two columns or with an empty trimmed first or
second column, and collects the remaining entries in order. -/
def collectCsvEntries : List Str → Nat → List CsvEntry
  | [], _ => []
  | l :: ls, i =>
    let line := jsTrim l
    if line = [] then collectCsvEntries ls (i + 1)
    else if i = 0 ∧ includesSub (lowerStr line) (strL "nome") = true ∧
        includesSub (lowerStr line) (strL "caminho") = true then
      collectCsvEntries ls (i + 1)
    else
      let columns := parseCsvLine line
      if columns.length < 2 then collectCsvEntries ls (i + 1)
      else
        let nome := jsTrim (columns.getD 0 [])
        let caminho := jsTrim (columns.getD 1 [])
        if nome = [] ∨ caminho = [] then collectCsvEntries ls (i + 1)
        else ⟨nome, caminho⟩ :: collectCsvEntries ls (i + 1)

/-- Embedding of readCsvFile (identical in all four converter classes),
applied to the file content: trims the content, splits it on newlines,
raises the empty-content error when the split yields no lines, collects
entries, and raises the no-valid-entries error when none were kept. -/
def readCsvFile (content : Str) : Except CsvError (List CsvEntry) :=
  let lines := splitLines (jsTrim content)
  if lines.length = 0 then .error .emptyInputError
  else
    let entries := collectCsvEntries lines 0
    if entries = [] then .error .noValidEntriesError
    else .ok entries

/-- Embedding of generateCSV from analizer.js: writes the header line and
one nome;caminho row per folder, after replacing every semicolon inside
either field with a comma; no quoting is performed. -/
def generateCSV (folders : List CsvEntry) : Str :=
  strL "nome;caminho" ++ ['\n'] ++
    (folders.map (fun f =>
      (f.nome.map (fun c => if c = ';' then ',' else c)) ++ [';'] ++
      (f.caminho.map (fun c => if c = ';' then ',' else c)) ++ ['\n'])).flatten

/-- Decimal digit value, for the parseInt model. -/
def decDigitVal (c : Char) : Option Nat :=
  if '0' ≤ c ∧ c ≤ '9' then some (c.toNat - '0'.toNat) else none

/-- Hexadecimal digit value, for the parseInt model. -/
def hexDigitVal (c : Char) : Option Nat :=
  if '0' ≤ c ∧ c ≤ '9' then some (c.toNat - '0'.toNat)
  else if 'a' ≤ c ∧ c ≤ 'f' then some (c.toNat - 'a'.toNat + 10)
  else if 'A' ≤ c ∧ c ≤ 'F' then some (c.toNat - 'A'.toNat + 10)
  else none

/-- Reads the longest leading run of digits of the given kind; none when
the run is empty (the NaN case of parseInt). -/
def parseDigitRun (val : Char → Option Nat) (base : Nat) (u : Str) : Option Nat :=
  let run := u.takeWhile (fun c => (val c).isSome)
  if run.isEmpty then none
  else some (run.foldl (fun a c => a * base + (val c).getD 0) 0)

/-- Unsigned part of the parseInt model: a 0x or 0X prefix switches to
hexadecimal, otherwise the leading decimal run is read. -/
def parseIntUnsigned : Str → Option Nat
  | '0' :: c :: r =>
    if c = 'x' ∨ c = 'X' then parseDigitRun hexDigitVal 16 r
    else parseDigitRun decDigitVal 10 ('0' :: c :: r)
  | u => parseDigitRun decDigitVal 10 u

/-- Model of JavaScript parseInt with no radix argument, as used on the
filename stems: skip leading whitespace, read an optional sign, then the
leading digit run (hexadecimal after a 0x prefix); none models NaN. -/
def parseIntJS (s : Str) : Option Int :=
  match s.dropWhile jsWhitespace with
  | '-' :: r => (parseIntUnsigned r).map (fun n => -(n : Int))
  | '+' :: r => (parseIntUnsigned r).map (fun n => (n : Int))
  | r => (parseIntUnsigned r).map (fun n => (n : Int))

/-- Model of path.basename(a, path.extname(a)) for the slash-free names
returned by a directory listing: drops the extension introduced by the
last dot, except when that dot is the first character (a dotfile has no
extension in the path module). -/
def stemOf (name : Str) : Str :=
  match name.reverse.dropWhile (fun c => c ≠ '.') with
  | [] => name
  | _ :: rest => if rest = [] then name else rest.reverse

/-- Model of path.extname for slash-free names: the suffix starting at
the last dot, empty for dotfiles and names without a dot. -/
def extnameOf (name : Str) : Str :=
  match name.reverse.dropWhile (fun c => c ≠ '.') with
  | [] => []
  | _ :: rest =>
    if rest = [] then []
    else '.' :: (name.reverse.takeWhile (fun c => c ≠ '.')).reverse

/-- Embedding of the sort comparator shared by all converter classes,
parameterised by the environment's implementation of
String.prototype.localeCompare: when both stems parse as integers the
comparator returns their difference, otherwise it returns
a.localeCompare(b) on the full filenames. -/
def sortCmp (lc : Str → Str → Int) (a b : Str) : Int :=
  match parseIntJS (stemOf a), parseIntJS (stemOf b) with
  | some numA, some numB => numA - numB
  | _, _ => lc a b

/-- Stable insertion of an element coming earlier in the original list:
it is placed before the first element it compares less-or-equal to. -/
def orderedInsertLe {α : Type} (le : α → α → Bool) (x : α) : List α → List α
  | [] => [x]
  | y :: ys => if le x y then x :: y :: ys else y :: orderedInsertLe le x ys

/-- Stable sort used to model Array.prototype.sort with a comparator:
for a consistent comparator the ECMA specification determines the result
uniquely as the stable sorted permutation, which this computes. -/
def insertionSortLe {α : Type} (le : α → α → Bool) : List α → List α
  | [] => []
  | x :: xs => orderedInsertLe le x (insertionSortLe le xs)

/-- Embedding of sortFilesNumerically, parameterised by the environment's
localeCompare. -/
def sortFilesNumerically (lc : Str → Str → Int) (files : List Str) : List Str :=
  insertionSortLe (fun a b => sortCmp lc a b ≤ 0) files

/-- Numeric key of a filename: the parsed stem value, defaulting to zero;
on filenames whose stem parses it agrees with the comparator. -/
def numKey (f : Str) : Int := (parseIntJS (stemOf f)).getD 0

/-- Modelled from the spec: the locale-naive byte/codepoint lexical
comparison the specification ascribes to the sort fallback (section 4.2).
This is the spec-side definition, to be compared with the localeCompare
call the code actually performs. -/
def specCodepointCompare : Str → Str → Int
  | [], [] => 0
  | [], _ :: _ => -1
  | _ :: _, [] => 1
  | a :: as, b :: bs =>
    if a.val < b.val then -1
    else if b.val < a.val then 1
    else specCodepointCompare as bs

/-- A locale-sensitive comparison consistent with the ICU root collation
shipped by Node at primary strength on ASCII letters: letters compare
case-insensitively first, so the lowercase a orders before the uppercase
B, unlike codepoint order.  Used as a concrete environment for the
localeCompare parameter. -/
def icuFoldCompare (a b : Str) : Int :=
  specCodepointCompare (lowerStr a) (lowerStr b)

/-- Supported image extensions, as listed in every converter constructor. -/
def supportedExtensions : List Str :=
  [strL ".jpg", strL ".jpeg", strL ".png", strL ".gif", strL ".bmp", strL ".webp"]

/-- Extension filter applied by every readImageFiles implementation. -/
def isImageFile (f : Str) : Bool :=
  supportedExtensions.contains (lowerStr (extnameOf f))

/-- Run-time failures of the pipelines, named after the error taxonomy of
the specification; the undefined-method constructor models a JavaScript
TypeError raised by invoking a method name absent from the class. -/
inductive RunError where
  | inputNotFoundError
  | notADirectoryError
  | noImagesFoundError
  | noImagesInAnyFolderError
  | missingFileError (p : Str)
  | writeFailedError
  | typeErrorUndefinedMethod (m : String)
deriving DecidableEq, Repr

/-- Filesystem model: existing directories, existing non-directory paths,
the image listing of each directory, paths whose access check fails (a
file that vanished between listing and use), and the output files the run
has written so far. -/
structure World where
  dirs : List Str
  plainFiles : List Str
  listing : Str → List Str
  missing : List Str
  outFiles : List Str

/-- Model of path.join for a directory path and a bare filename. -/
def pathJoin (a b : Str) : Str := a ++ ['/'] ++ b

/-- Directory part of a relative output path: everything before the last
slash, empty for a bare name (which resolves to the working directory). -/
def dirOfPath (p : Str) : Str :=
  match p.reverse.dropWhile (fun c => c ≠ '/') with
  | [] => []
  | _ :: rest => rest.reverse

/-- Embedding of validateFolder (identical in all converter classes):
stat failure with ENOENT reports a missing folder, a non-directory path
reports the not-a-directory error. -/
def validateFolder (w : World) (p : Str) : Except RunError Unit :=
  if w.dirs.contains p then .ok ()
  else if w.plainFiles.contains p then .error .notADirectoryError
  else .error .inputNotFoundError

/-- Embedding of readImageFiles of the single-output converters: filters
the listing by extension and fails when no image file remains. -/
def readImageFilesStrict (w : World) (folderPath : Str) : Except RunError (List Str) :=
  let imageFiles := (w.listing folderPath).filter isImageFile
  if imageFiles.length = 0 then .error .noImagesFoundError
  else .ok imageFiles

/-- Embedding of readImageFiles of the merge converters: the same filter,
but an empty result is returned to the caller rather than raised. -/
def readImageFilesLoose (w : World) (folderPath : Str) : List Str :=
  (w.listing folderPath).filter isImageFile

/-- The per-image access loop of the pipelines: fails on the first listed
path whose access check fails. -/
def checkAll (w : World) (paths : List Str) : Except RunError Unit :=
  match paths.find? (fun p => w.missing.contains p) with
  | some p => .error (.missingFileError p)
  | none => .ok ()

/-- Model of mkdir with the recursive flag: never fails, records the
directory. -/
def mkdirRec (w : World) (d : Str) : World :=
  { w with dirs := if w.dirs.contains d then w.dirs else d :: w.dirs }

/-- Model of opening a write stream on a path and completing the write:
fails (ENOENT) when the directory part of the path does not exist. -/
def writeOut (w : World) (p : Str) : Except RunError World :=
  if dirOfPath p = [] ∨ w.dirs.contains (dirOfPath p) then
    .ok { w with outFiles := p :: w.outFiles }
  else .error .writeFailedError

/-- Output-name normalization of the EPUB converters: append .epub unless
the name already ends with it. -/
def epubOutputName (nome : Str) : Str :=
  if (strL ".epub").isSuffixOf nome then nome else nome ++ strL ".epub"

/-- Output-name normalization of the PDF converters. -/
def pdfOutputName (nome : Str) : Str :=
  if (strL ".pdf").isSuffixOf nome then nome else nome ++ strL ".pdf"

/-- Result of one batch-loop iteration. -/
inductive EntryOutcome where
  | success (outputPath : Str)
  | failure (e : RunError)
deriving DecidableEq, Repr

/-- One iteration of processCsvEntries in epub-converter.js: validate the
folder, scan, sort, join paths, check access, build the epub/ output
name, ensure the epub directory exists, and assemble (the temporary
directory construction and the external zip tool are modelled as a write
that succeeds whenever the destination directory exists).  Every failure
is caught at the entry boundary. -/
def epubProcessCsvEntry (lc : Str → Str → Int) (w : World) (e : CsvEntry) :
    World × EntryOutcome :=
  match validateFolder w e.caminho with
  | .error err => (w, .failure err)
  | .ok _ =>
    match readImageFilesStrict w e.caminho with
    | .error err => (w, .failure err)
    | .ok imageFiles =>
      let sortedFiles := sortFilesNumerically lc imageFiles
      let imagePaths := sortedFiles.map (fun f => pathJoin e.caminho f)
      match checkAll w imagePaths with
      | .error err => (w, .failure err)
      | .ok _ =>
        let outputFileName := strL "epub/" ++ epubOutputName e.nome
        let w1 := mkdirRec w (strL "epub")
        match writeOut w1 outputFileName with
        | .error err => (w1, .failure err)
        | .ok w2 => (w2, .success outputFileName)

/-- The batch loop of epub-converter.js over all CSV entries; errors never
escape an iteration. -/
def epubProcessCsvEntries (lc : Str → Str → Int) (w : World) :
    List CsvEntry → World × List EntryOutcome
  | [] => (w, [])
  | e :: es =>
    let (w1, o) := epubProcessCsvEntry lc w e
    let (w2, os) := epubProcessCsvEntries lc w1 es
    (w2, o :: os)

/-- Result of a CSV batch run: final filesystem, per-entry outcomes, and
the process exit code. -/
structure BatchResult where
  world : World
  outcomes : List EntryOutcome
  exitCode : Nat

/-- CSV mode of ImageToEpubConverter.run, given the CSV content: a parse
failure exits 1; otherwise the loop runs to the end and the process exits
0 regardless of per-entry outcomes. -/
def epubBatchRun (lc : Str → Str → Int) (w : World) (content : Str) : BatchResult :=
  match readCsvFile content with
  | .error _ => ⟨w, [], 1⟩
  | .ok entries =>
    let (w1, os) := epubProcessCsvEntries lc w entries
    ⟨w1, os, 0⟩

/-- The method names actually defined on the ImageToEpubConverter class in
epub-converter.js. -/
def epubMethodNames : List String :=
  ["validateArguments", "readCsvFile", "parseCsvLine", "validateFolder",
   "readImageFiles", "sortFilesNumerically", "generateUUID",
   "createEpubStructure", "copyImagesToEpub", "createHtmlPages",
   "createContentOpf", "createTocNcx", "createEpubFile", "createEpub",
   "processCsvEntries", "run"]

/-- Single-folder mode of ImageToEpubConverter.run.  Line 568 of
epub-converter.js invokes this.sortFilesNumericamente, a name that is not
among the methods of the class, so the call site is modelled by a lookup
into the method table that raises a TypeError when the name is absent. -/
def epubSingleRun (lc : Str → Str → Int) (w : World) (folderPath outputName : Str) :
    Except RunError (World × Str) :=
  match validateFolder w folderPath with
  | .error e => .error e
  | .ok _ =>
    match readImageFilesStrict w folderPath with
    | .error e => .error e
    | .ok imageFiles =>
      if epubMethodNames.contains "sortFilesNumericamente" then
        let sortedFiles := sortFilesNumerically lc imageFiles
        let imagePaths := sortedFiles.map (fun f => pathJoin folderPath f)
        match checkAll w imagePaths with
        | .error e => .error e
        | .ok _ =>
          let outputPath := strL "epub/" ++ epubOutputName outputName
          let w1 := mkdirRec w (strL "epub")
          match writeOut w1 outputPath with
          | .error e => .error e
          | .ok w2 => .ok (w2, outputPath)
      else .error (.typeErrorUndefinedMethod "sortFilesNumericamente")

/-- Exit code of the single-folder EPUB mode: run catches any error and
exits 1, success exits 0. -/
def epubSingleExit (lc : Str → Str → Int) (w : World) (folderPath outputName : Str) : Nat :=
  match epubSingleRun lc w folderPath outputName with
  | .ok _ => 0
  | .error _ => 1

/-- One collected image of the merge converters, with the originating
folder metadata attached. -/
structure MergedImageRecord where
  path : Str
  filename : Str
  folderName : Str
  folderIndex : Nat
  imageIndex : Nat
  totalInFolder : Nat
deriving DecidableEq, Repr

/-- The map building imagesInfo inside collectAllImages: one record per
sorted file, with one-based imageIndex. -/
def mkImagesInfo (caminho nome : Str) (fIdx total : Nat) :
    List Str → Nat → List MergedImageRecord
  | [], _ => []
  | f :: fs, ii =>
    ⟨pathJoin caminho f, f, nome, fIdx, ii, total⟩ :: mkImagesInfo caminho nome fIdx total fs (ii + 1)

/-- Entry loop of collectAllImages (identical in gen-lote-epub.js and
merge-pdf.js), with one-based folder index: a folder that fails to
validate or whose access check fails contributes nothing (error caught,
loop continues), an empty folder contributes nothing (warning, loop
continues), any other folder contributes its sorted records. -/
def collectAllImagesGo (lc : Str → Str → Int) (w : World) :
    List CsvEntry → Nat → List MergedImageRecord
  | [], _ => []
  | e :: es, i =>
    let contrib :=
      match validateFolder w e.caminho with
      | .error _ => []
      | .ok _ =>
        let imageFiles := readImageFilesLoose w e.caminho
        if imageFiles.length = 0 then []
        else
          let sortedFiles := sortFilesNumerically lc imageFiles
          let imagesInfo := mkImagesInfo e.caminho e.nome i sortedFiles.length sortedFiles 1
          match checkAll w (imagesInfo.map MergedImageRecord.path) with
          | .error _ => []
          | .ok _ => imagesInfo
    contrib ++ collectAllImagesGo lc w es (i + 1)

/-- Embedding of collectAllImages: fails only when no folder contributed
any image at all. -/
def collectAllImages (lc : Str → Str → Int) (w : World) (entries : List CsvEntry) :
    Except RunError (List MergedImageRecord) :=
  let allImages := collectAllImagesGo lc w entries 1
  if allImages.length = 0 then .error .noImagesInAnyFolderError
  else .ok allImages

/-- MergeEpubConverter.run, given the CSV content: parse, collect, build
the epub/ output path, ensure the epub directory, assemble; returns the
final filesystem and the process exit code. -/
def mergeEpubRun (lc : Str → Str → Int) (w : World) (content outputName : Str) :
    World × Nat :=
  match readCsvFile content with
  | .error _ => (w, 1)
  | .ok entries =>
    match collectAllImages lc w entries with
    | .error _ => (w, 1)
    | .ok _ =>
      let outputPath := strL "epub/" ++ epubOutputName outputName
      let w1 := mkdirRec w (strL "epub")
      match writeOut w1 outputPath with
      | .error _ => (w1, 1)
      | .ok w2 => (w2, 0)

/-- One iteration of processCsvEntries in the batch PDF converter: the
same steps as the EPUB batch iteration except that the output goes under
pdf/ and, unlike the EPUB converters, no mkdir call precedes the write —
createPdf opens its write stream directly on the output path. -/
def pdfProcessCsvEntry (lc : Str → Str → Int) (w : World) (e : CsvEntry) :
    World × EntryOutcome :=
  match validateFolder w e.caminho with
  | .error err => (w, .failure err)
  | .ok _ =>
    match readImageFilesStrict w e.caminho with
    | .error err => (w, .failure err)
    | .ok imageFiles =>
      let sortedFiles := sortFilesNumerically lc imageFiles
      let imagePaths := sortedFiles.map (fun f => pathJoin e.caminho f)
      match checkAll w imagePaths with
      | .error err => (w, .failure err)
      | .ok _ =>
        let outputFileName := strL "pdf/" ++ pdfOutputName e.nome
        match writeOut w outputFileName with
        | .error err => (w, .failure err)
        | .ok w2 => (w2, .success outputFileName)

/-- The batch loop of the PDF converter. -/
def pdfProcessCsvEntries (lc : Str → Str → Int) (w : World) :
    List CsvEntry → World × List EntryOutcome
  | [] => (w, [])
  | e :: es =>
    let (w1, o) := pdfProcessCsvEntry lc w e
    let (w2, os) := pdfProcessCsvEntries lc w1 es
    (w2, o :: os)

/-- CSV mode of ImageToPdfConverter.run, given the CSV content. -/
def pdfBatchRun (lc : Str → Str → Int) (w : World) (content : Str) : BatchResult :=
  match readCsvFile content with
  | .error _ => ⟨w, [], 1⟩
  | .ok entries =>
    let (w1, os) := pdfProcessCsvEntries lc w entries
    ⟨w1, os, 0⟩

/-- MergePdfConverter.run, given the CSV content: like the merged EPUB
run but writing under pdf/, with the mkdir call present (line 627 of
merge-pdf.js). -/
def mergePdfRun (lc : Str → Str → Int) (w : World) (content outputName : Str) :
    World × Nat :=
  match readCsvFile content with
  | .error _ => (w, 1)
  | .ok entries =>
    match collectAllImages lc w entries with
    | .error _ => (w, 1)
    | .ok _ =>
      let outputPath := strL "pdf/" ++ pdfOutputName outputName
      let w1 := mkdirRec w (strL "pdf")
      match writeOut w1 outputPath with
      | .error _ => (w1, 1)
      | .ok w2 => (w2, 0)

/-- Decimal digits of a number. -/
def natDigits (n : Nat) : Str := Nat.toDigits 10 n

/-- Model of String.prototype.padStart with a zero pad character. -/
def padStartZero (k : Nat) (s : Str) : Str :=
  List.replicate (k - s.length) '0' ++ s

/-- The XHTML page filename the merge EPUB converter derives from a
global page number. -/
def pageHtmlName (pn : Nat) : Str :=
  strL "page_" ++ padStartZero 4 (natDigits pn) ++ strL ".xhtml"

/-- The fields of one image object reaching createTocNcx of the merge
EPUB converter: the originating folder name and the one-based position
inside the folder (originalInfo), the one-based global page number, and
the XHTML page filename. -/
structure MImg where
  folderName : Str
  imageIndex : Nat
  pageNumber : Nat
  htmlFile : Str
deriving DecidableEq, Repr

/-- One nested page navigation point of the merged toc.ncx, recording the
attributes the template interpolates: the page number used in the id, the
playOrder counter value, the image index shown in the label, and the
content source. -/
structure NavPage where
  pageNumber : Nat
  playOrder : Nat
  imageIndex : Nat
  src : Str
deriving DecidableEq, Repr

/-- One top-level folder navigation point of the merged toc.ncx. -/
structure NavFolder where
  folderId : Nat
  playOrder : Nat
  label : Str
  src : Str
  pages : List NavPage
deriving DecidableEq, Repr

/-- Inner loop of MergeEpubConverter.createTocNcx: each image of the
filtered folder first increments the running counter and then receives it
as playOrder. -/
def mkNavPages : List MImg → Nat → List NavPage
  | [], _ => []
  | im :: ims, po => ⟨im.pageNumber, po + 1, im.imageIndex, im.htmlFile⟩ :: mkNavPages ims (po + 1)

/-- Outer loop of MergeEpubConverter.createTocNcx: walks the image list
tracking the current folder name; an image in the tracked folder is
skipped, otherwise a folder navigation point is emitted whose nested
pages come from filtering the whole image list by that folder name, after
which the counter advances past those pages plus one for the next
folder. -/
def tocGo (full : List MImg) : List MImg → Str → Nat → Nat → List NavFolder
  | [], _, _, _ => []
  | im :: rest, currentFolder, folderNavPoint, pageOrder =>
    if im.folderName = currentFolder then tocGo full rest currentFolder folderNavPoint pageOrder
    else
      let folderImages := full.filter (fun x => x.folderName == im.folderName)
      ⟨folderNavPoint, pageOrder, im.folderName, im.htmlFile, mkNavPages folderImages pageOrder⟩ ::
        tocGo full rest im.folderName (folderNavPoint + 1) (pageOrder + folderImages.length + 1)

/-- The navigation map produced by MergeEpubConverter.createTocNcx, with
the initial empty current folder and both counters starting at 1. -/
def mergeTocNavMap (imageList : List MImg) : List NavFolder :=
  tocGo imageList imageList [] 1 1

/-- The dtb header attributes of a toc.ncx file. -/
structure TocHead where
  depth : Nat
  totalPageCount : Nat
  maxPageNumber : Nat
deriving DecidableEq, Repr

/-- Header attributes written by MergeEpubConverter.createTocNcx: depth
2 and both page counts equal to the image-list length. -/
def mergeTocHead (imageList : List MImg) : TocHead :=
  ⟨2, imageList.length, imageList.length⟩

/-- One flat navigation point of the single-converter toc.ncx: the page
number is interpolated as id, playOrder and label alike. -/
structure EpubNavPoint where
  pageNumber : Nat
  src : Str
deriving DecidableEq, Repr

/-- Navigation map written by ImageToEpubConverter.createTocNcx: one flat
point per image, from its page number and html filename. -/
def epubTocNavMap (imageList : List (Nat × Str)) : List EpubNavPoint :=
  imageList.map (fun p => ⟨p.1, p.2⟩)

/-- Header attributes written by ImageToEpubConverter.createTocNcx: the
template hardcodes depth 1 and zero for both page counts, independent of
the image list. -/
def epubTocHead (_imageList : List (Nat × Str)) : TocHead :=
  ⟨1, 0, 0⟩

/-- Composition of collectAllImages and the page-number/page-file
assignment of copyImagesToEpub and createHtmlPages, restricted to the
fields createTocNcx reads, for one folder given as its name and sorted
file list: the block of images with one-based in-folder indices starting
at the given global page number. -/
def mkBlock (name : Str) : List Str → Nat → Nat → List MImg
  | [], _, _ => []
  | _f :: fs, ii, pn => ⟨name, ii, pn, pageHtmlName pn⟩ :: mkBlock name fs (ii + 1) (pn + 1)

/-- The merged image list for a sequence of folders in CSV order, each
with its sorted file list, starting at the given global page number. -/
def buildImageList : List (Str × List Str) → Nat → List MImg
  | [], _ => []
  | (name, files) :: rest, pn =>
    mkBlock name files 1 pn ++ buildImageList rest (pn + files.length)

/-- Derived closed form of the nested pages of one folder entry of the
navigation map. -/
def mkNavPagesE : List Str → Nat → Nat → Nat → List NavPage
  | [], _, _, _ => []
  | _ :: fs, ii, po, pn => ⟨pn, po, ii, pageHtmlName pn⟩ :: mkNavPagesE fs (ii + 1) (po + 1) (pn + 1)

/-- Derived closed form of the navigation map on a per-folder image list:
one entry per folder, with the folder counter, the running play-order
counter and the global page counter advancing per folder. -/
def expectedNavMap : List (Str × List Str) → Nat → Nat → Nat → List NavFolder
  | [], _, _, _ => []
  | (name, files) :: rest, fnp, po, pn =>
    ⟨fnp, po, name, pageHtmlName pn, mkNavPagesE files 1 (po + 1) pn⟩ ::
      expectedNavMap rest (fnp + 1) (po + files.length + 1) (pn + files.length)

/-- The sequence of playOrder values of a navigation map in document
order. -/
def tocPlayOrders (nav : List NavFolder) : List Nat :=
  (nav.map (fun nf => nf.playOrder :: nf.pages.map NavPage.playOrder)).flatten

/-- A CSV field that survives the analyzer-to-parser round trip
unchanged: non-empty, free of separator, quote and newline characters,
and unchanged by trimming. -/
def goodField (f : Str) : Bool :=
  !f.isEmpty &&
  f.all (fun c => c != ';' && c != '"' && c != '\n') &&
  jsTrim f == f

/-- Pairs each folder with the global page number its block starts at. -/
def zipWithBases : List (Str × List Str) → Nat → List ((Str × List Str) × Nat)
  | [], _ => []
  | p :: ps, pn => (p, pn) :: zipWithBases ps (pn + p.2.length)

/-- Join lines with single newlines (no trailing newline). -/
def linesJoin : List Str → Str
  | [] => []
  | [l] => l
  | l :: ls => l ++ '\n' :: linesJoin ls

/-- The unquoted row a CSV entry becomes in a generated file. -/
def rowCore (e : CsvEntry) : Str := e.nome ++ ';' :: e.caminho

/-- Sample filesystem: one directory holding one image. -/
def wSingleImgs : World :=
  ⟨[strL "imgs"], [], fun p => if p = strL "imgs" then [strL "1.jpg"] else [], [], []⟩

/-- Sample filesystem for the empty-folder asymmetry: a directory with no
image files next to a directory with two. -/
def wAsym : World :=
  ⟨[strL "vazia", strL "cheia"], [],
   fun p =>
     if p = strL "vazia" then [strL "notas.txt"]
     else if p = strL "cheia" then [strL "2.png", strL "1.jpg"] else [],
   [], []⟩

/-- Sample filesystem for the output-directory claims: a source folder
with one image and no pre-existing pdf or epub directory. -/
def wOutDirs : World :=
  ⟨[strL "imgs"], [], fun p => if p = strL "imgs" then [strL "1.jpg"] else [], [], []⟩

lemma parseCsvLineGo_no_quote (cs : Str) :
    ∀ (cur : Str) (inQuotes : Bool), cur.all (fun c => c != '"') = true →
      (parseCsvLineGo cs cur inQuotes).all (fun f => f.all (fun c => c != '"')) = true := by
  induction cs with
  | nil =>
    intro cur inQuotes h
    simpa [parseCsvLineGo] using h
  | cons c cs ih =>
    intro cur inQuotes h
    by_cases hq : c = '"'
    · simpa [parseCsvLineGo, hq] using ih cur (!inQuotes) h
    · by_cases hs : c = ';' ∧ inQuotes = false
      · simp only [parseCsvLineGo, if_neg hq, if_pos hs, List.all_cons]
        rw [h, ih [] false rfl]
        rfl
      · simp only [parseCsvLineGo, if_neg hq, if_neg hs]
        refine ih (cur ++ [c]) inQuotes ?_
        rw [List.all_append, h]
        simpa using hq

/-- C9: every double-quote character in a CSV line only toggles the
in-quotes state of parseCsvLine and is dropped, so no field of the result
contains a double quote. -/
theorem c9_parseCsvLine_fields_quote_free (line : Str) :
    (parseCsvLine line).all (fun f => f.all (fun c => c != '"')) = true :=
  parseCsvLineGo_no_quote line [] false rfl

/-- C10: for non-empty image lists the single/batch EPUB toc.ncx header
always declares zero for dtb:totalPageCount and dtb:maxPageNumber, while
the merged EPUB toc.ncx header declares the image count for both, so the
two assemblers disagree on these fields on every non-empty document. -/
theorem c10_toc_head_counts (l1 : List (Nat × Str)) (l2 : List MImg)
    (_h1 : l1 ≠ []) (h2 : l2 ≠ []) :
    (epubTocHead l1).totalPageCount = 0 ∧ (epubTocHead l1).maxPageNumber = 0 ∧
    (mergeTocHead l2).totalPageCount = l2.length ∧
    (mergeTocHead l2).maxPageNumber = l2.length ∧
    (epubTocHead l1).totalPageCount ≠ (mergeTocHead l2).totalPageCount ∧
    (epubTocHead l1).maxPageNumber ≠ (mergeTocHead l2).maxPageNumber := by
  have hlen : l2.length ≠ 0 := fun hz => h2 (List.length_eq_zero.mp hz)
  exact ⟨rfl, rfl, rfl, rfl, fun hc => hlen hc.symm, fun hc => hlen hc.symm⟩

/-- Witness for C10 at a one-page document on each side. -/
theorem c10_witness :
    (epubTocHead [(1, pageHtmlName 1)]).totalPageCount = 0 ∧
    (epubTocHead [(1, pageHtmlName 1)]).maxPageNumber = 0 ∧
    (mergeTocHead [⟨strL "A", 1, 1, pageHtmlName 1⟩]).totalPageCount = 1 ∧
    (mergeTocHead [⟨strL "A", 1, 1, pageHtmlName 1⟩]).maxPageNumber = 1 ∧
    (epubTocHead [(1, pageHtmlName 1)]).totalPageCount ≠
      (mergeTocHead [⟨strL "A", 1, 1, pageHtmlName 1⟩]).totalPageCount ∧
    (epubTocHead [(1, pageHtmlName 1)]).maxPageNumber ≠
      (mergeTocHead [⟨strL "A", 1, 1, pageHtmlName 1⟩]).maxPageNumber :=
  c10_toc_head_counts [(1, pageHtmlName 1)] [⟨strL "A", 1, 1, pageHtmlName 1⟩]
    (by decide) (by decide)

lemma orderedInsertLe_perm {α : Type} (le : α → α → Bool) (x : α) (l : List α) :
    (orderedInsertLe le x l).Perm (x :: l) := by
  induction l with
  | nil => simp [orderedInsertLe]
  | cons y ys ih =>
    by_cases h : le x y = true
    · simp [orderedInsertLe, h]
    · rw [orderedInsertLe, if_neg h]
      exact List.Perm.trans (List.Perm.cons y ih) (List.Perm.swap x y ys)

lemma insertionSortLe_perm {α : Type} (le : α → α → Bool) (l : List α) :
    (insertionSortLe le l).Perm l := by
  induction l with
  | nil => simp [insertionSortLe]
  | cons x xs ih =>
    exact List.Perm.trans (orderedInsertLe_perm le x (insertionSortLe le xs))
      (List.Perm.cons x ih)

lemma orderedInsertLe_pairwise {α : Type} (le : α → α → Bool) (r : α → α → Prop)
    (P : α → Prop)
    (hiff : ∀ a b, P a → P b → (le a b = true ↔ r a b))
    (htot : ∀ a b, P a → P b → r a b ∨ r b a)
    (htrans : ∀ a b c, P a → P b → P c → r a b → r b c → r a c)
    (x : α) (hx : P x) :
    ∀ l : List α, (∀ y ∈ l, P y) → l.Pairwise r → (orderedInsertLe le x l).Pairwise r := by
  intro l
  induction l with
  | nil =>
    intro _ _
    simp [orderedInsertLe]
  | cons y ys ih =>
    intro hP hpw
    have hPy : P y := hP y (by simp)
    have hPys : ∀ z ∈ ys, P z := fun z hz => hP z (by simp [hz])
    rcases List.pairwise_cons.mp hpw with ⟨hy, hys⟩
    by_cases h : le x y = true
    · rw [orderedInsertLe, if_pos h]
      have hxy : r x y := (hiff x y hx hPy).mp h
      refine List.pairwise_cons.mpr ⟨?_, hpw⟩
      intro z hz
      rcases List.mem_cons.mp hz with rfl | hz
      · exact hxy
      · exact htrans x y z hx hPy (hPys z hz) hxy (hy z hz)
    · rw [orderedInsertLe, if_neg h]
      have hyx : r y x := by
        rcases htot x y hx hPy with hr | hr
        · exact absurd ((hiff x y hx hPy).mpr hr) h
        · exact hr
      refine List.pairwise_cons.mpr ⟨?_, ih hPys hys⟩
      intro z hz
      rcases List.mem_cons.mp ((orderedInsertLe_perm le x ys).mem_iff.mp hz) with rfl | hz2
      · exact hyx
      · exact hy z hz2

lemma insertionSortLe_pairwise {α : Type} (le : α → α → Bool) (r : α → α → Prop)
    (P : α → Prop)
    (hiff : ∀ a b, P a → P b → (le a b = true ↔ r a b))
    (htot : ∀ a b, P a → P b → r a b ∨ r b a)
    (htrans : ∀ a b c, P a → P b → P c → r a b → r b c → r a c) :
    ∀ l : List α, (∀ y ∈ l, P y) → (insertionSortLe le l).Pairwise r := by
  intro l
  induction l with
  | nil =>
    intro _
    simp [insertionSortLe]
  | cons x xs ih =>
    intro hP
    have hx : P x := hP x (by simp)
    have hPxs : ∀ y ∈ xs, P y := fun y hy => hP y (by simp [hy])
    refine orderedInsertLe_pairwise le r P hiff htot htrans x hx (insertionSortLe le xs)
      ?_ (ih hPxs)
    intro y hy
    exact hPxs y ((insertionSortLe_perm le xs).mem_iff.mp hy)

/-- C5 counterexample: two filenames with equal numeric stems satisfy the
all-stems-numeric hypothesis, and the sort returns them unchanged, so the
resulting stem sequence 1, 1 is not strictly ascending. -/
theorem c5_counterexample :
    ([strL "1.jpg", strL "1.png"].all (fun f => (parseIntJS (stemOf f)).isSome)) = true ∧
    sortFilesNumerically icuFoldCompare [strL "1.jpg", strL "1.png"]
      = [strL "1.jpg", strL "1.png"] ∧
    ¬ (sortFilesNumerically icuFoldCompare [strL "1.jpg", strL "1.png"]).Pairwise
        (fun a b => numKey a < numKey b) :=
  ⟨by decide, by decide, by decide⟩

/-- C5 amended: when every stem parses as an integer, the sort returns a
permutation of the input in non-decreasing numeric order of the stems,
and that order is strictly ascending whenever the stem values are
pairwise distinct. -/
theorem c5_numeric_sort (lc : Str → Str → Int) (files : List Str)
    (hnum : ∀ f ∈ files, (parseIntJS (stemOf f)).isSome = true) :
    (sortFilesNumerically lc files).Perm files ∧
    (sortFilesNumerically lc files).Pairwise (fun a b => numKey a ≤ numKey b) ∧
    ((files.map numKey).Nodup →
      (sortFilesNumerically lc files).Pairwise (fun a b => numKey a < numKey b)) := by
  have hperm : (sortFilesNumerically lc files).Perm files :=
    insertionSortLe_perm _ files
  have hiff : ∀ a b : Str, (parseIntJS (stemOf a)).isSome = true →
      (parseIntJS (stemOf b)).isSome = true →
      ((decide (sortCmp lc a b ≤ 0) : Bool) = true ↔ numKey a ≤ numKey b) := by
    intro a b ha hb
    rcases Option.isSome_iff_exists.mp ha with ⟨x, hx⟩
    rcases Option.isSome_iff_exists.mp hb with ⟨y, hy⟩
    have hcmp : sortCmp lc a b = x - y := by
      unfold sortCmp
      rw [hx, hy]
    rw [decide_eq_true_iff, hcmp, numKey, numKey, hx, hy]
    simp [sub_nonpos]
  have hpw : (sortFilesNumerically lc files).Pairwise (fun a b => numKey a ≤ numKey b) :=
    insertionSortLe_pairwise _ _ (fun f => (parseIntJS (stemOf f)).isSome = true)
      hiff
      (fun a b _ _ => le_total (numKey a) (numKey b))
      (fun a b c _ _ _ h1 h2 => le_trans h1 h2)
      files hnum
  refine ⟨hperm, hpw, fun hnd => ?_⟩
  have hnd2 : ((sortFilesNumerically lc files).map numKey).Nodup :=
    ((hperm.map numKey).nodup_iff).mpr hnd
  have hne : (sortFilesNumerically lc files).Pairwise (fun a b => numKey a ≠ numKey b) :=
    List.pairwise_map.mp hnd2
  exact (hpw.and hne).imp (fun h => lt_of_le_of_ne h.1 h.2)

/-- Witness for C5 at the example of the specification. -/
theorem c5_witness :
    (sortFilesNumerically icuFoldCompare [strL "10.jpg", strL "2.png", strL "1.gif"]).Perm
      [strL "10.jpg", strL "2.png", strL "1.gif"] ∧
    (sortFilesNumerically icuFoldCompare [strL "10.jpg", strL "2.png", strL "1.gif"]).Pairwise
      (fun a b => numKey a ≤ numKey b) ∧
    (sortFilesNumerically icuFoldCompare [strL "10.jpg", strL "2.png", strL "1.gif"]).Pairwise
      (fun a b => numKey a < numKey b) := by
  have h := c5_numeric_sort icuFoldCompare [strL "10.jpg", strL "2.png", strL "1.gif"]
    (by decide)
  exact ⟨h.1, h.2.1, h.2.2 (by decide)⟩

/-- C6 counterexample: the comparator fallback is the environment's
localeCompare, not a codepoint comparison; under a comparison consistent
with the root-locale collation Node ships (lowercase a before uppercase
B), the fallback result on two non-numeric filenames differs from the
codepoint comparison the claim asserts. -/
theorem c6_counterexample :
    ¬ (∀ (lc : Str → Str → Int) (a b : Str),
        (parseIntJS (stemOf a) = none ∨ parseIntJS (stemOf b) = none) →
        sortCmp lc a b = specCodepointCompare a b) := by
  intro h
  have hc := h icuFoldCompare (strL "B.png") (strL "a.png") (Or.inl (by decide))
  have hne : ¬ sortCmp icuFoldCompare (strL "B.png") (strL "a.png")
      = specCodepointCompare (strL "B.png") (strL "a.png") := by decide
  exact hne hc

/-- C6 amended: whenever either stem fails to parse as an integer, the
comparator returns exactly the localeCompare of the environment applied
to the two full filenames — a locale-sensitive comparison, not in
general the codepoint order. -/
theorem c6_fallback_is_localeCompare (lc : Str → Str → Int) (a b : Str)
    (h : parseIntJS (stemOf a) = none ∨ parseIntJS (stemOf b) = none) :
    sortCmp lc a b = lc a b := by
  unfold sortCmp
  cases ha : parseIntJS (stemOf a) with
  | none => cases hb : parseIntJS (stemOf b) <;> rfl
  | some x =>
    cases hb : parseIntJS (stemOf b) with
    | none => rfl
    | some y =>
      rcases h with h | h
      · rw [ha] at h
        exact Option.noConfusion h
      · rw [hb] at h
        exact Option.noConfusion h

/-- Witness for C6 at a non-numeric stem. -/
theorem c6_witness :
    parseIntJS (stemOf (strL "x.png")) = none ∧
    sortCmp specCodepointCompare (strL "x.png") (strL "1.jpg")
      = specCodepointCompare (strL "x.png") (strL "1.jpg") :=
  ⟨by decide,
   c6_fallback_is_localeCompare specCodepointCompare (strL "x.png") (strL "1.jpg")
     (Or.inl (by decide))⟩

/-- C3 counterexample: an empty CSV file fails with the no-valid-entries
error, not the empty-input error the claim assigns to it. -/
theorem c3_counterexample :
    readCsvFile (strL "") = .error .noValidEntriesError ∧
    readCsvFile (strL "") ≠ .error .emptyInputError := by
  have h : readCsvFile (strL "") = .error .noValidEntriesError := by rfl
  refine ⟨h, fun hc => ?_⟩
  have h2 : CsvError.noValidEntriesError = CsvError.emptyInputError :=
    Except.error.inj (h.symm.trans hc)
  exact CsvError.noConfusion h2

lemma splitLines_ne_nil (s : Str) : splitLines s ≠ [] := by
  cases s with
  | nil => simp [splitLines]
  | cons c cs =>
    by_cases h : c = '\n'
    · simp [splitLines, h]
    · simp only [splitLines, if_neg h]
      cases splitLines cs <;> simp

/-- C3 amended: splitting always yields at least one line, so readCsvFile
can never fail with the empty-input error; content whose characters are
all whitespace (in particular an empty or whitespace-only file) fails
with the no-valid-entries error. -/
theorem c3_empty_input_unreachable (content : Str) :
    readCsvFile content ≠ .error .emptyInputError ∧
    ((∀ c ∈ content, jsWhitespace c = true) →
      readCsvFile content = .error .noValidEntriesError) := by
  constructor
  · unfold readCsvFile
    have hne : (splitLines (jsTrim content)).length ≠ 0 := by
      simpa [List.length_eq_zero] using splitLines_ne_nil (jsTrim content)
    rw [if_neg hne]
    by_cases he : collectCsvEntries (splitLines (jsTrim content)) 0 = []
    · rw [if_pos he]
      intro hc
      exact CsvError.noConfusion (Except.error.inj hc)
    · rw [if_neg he]
      intro hc
      exact Except.noConfusion hc
  · intro hws
    have htrim : jsTrim content = [] := by
      unfold jsTrim
      have h1 : content.dropWhile jsWhitespace = [] :=
        List.dropWhile_eq_nil_iff.mpr hws
      rw [h1]
      rfl
    rw [readCsvFile, htrim]
    rfl

/-- Witness for C3 at a whitespace-only file. -/
theorem c3_witness :
    readCsvFile (strL " \n ") = .error .noValidEntriesError ∧
    readCsvFile (strL " \n ") ≠ .error .emptyInputError :=
  ⟨(c3_empty_input_unreachable (strL " \n ")).2 (by decide),
   (c3_empty_input_unreachable (strL " \n ")).1⟩

/-- C1: in single-folder EPUB mode, for any existing folder whose listing
contains at least one supported image, the run does not reach document
assembly: line 568 of epub-converter.js invokes the undefined method name
sortFilesNumericamente, so the sorting step raises a TypeError and the
process exits 1. -/
theorem c1_single_epub_sort_typeerror (lc : Str → Str → Int) (w : World)
    (folderPath outputName : Str)
    (hdir : w.dirs.contains folderPath = true)
    (himg : ((w.listing folderPath).filter isImageFile).length ≠ 0) :
    epubSingleRun lc w folderPath outputName
      = .error (.typeErrorUndefinedMethod "sortFilesNumericamente") ∧
    epubSingleExit lc w folderPath outputName = 1 := by
  have hrun : epubSingleRun lc w folderPath outputName
      = .error (.typeErrorUndefinedMethod "sortFilesNumericamente") := by
    unfold epubSingleRun validateFolder readImageFilesStrict
    rw [if_pos hdir]
    simp only [if_neg himg]
    have hm : epubMethodNames.contains "sortFilesNumericamente" = false := by decide
    rw [hm]
    rfl
  exact ⟨hrun, by unfold epubSingleExit; rw [hrun]⟩

/-- Witness for C1: a folder with one image, output name book. -/
theorem c1_witness :
    epubSingleRun icuFoldCompare wSingleImgs (strL "imgs") (strL "book")
      = .error (.typeErrorUndefinedMethod "sortFilesNumericamente") ∧
    epubSingleExit icuFoldCompare wSingleImgs (strL "imgs") (strL "book") = 1 :=
  c1_single_epub_sort_typeerror icuFoldCompare wSingleImgs (strL "imgs") (strL "book")
    (by decide) (by decide)

lemma head_not_ws_of_dropWhile_eq {c : Char} {t : Str}
    (h : (c :: t).dropWhile jsWhitespace = c :: t) : jsWhitespace c = false := by
  cases hc : jsWhitespace c with
  | false => rfl
  | true =>
    rw [List.dropWhile_cons, if_pos hc] at h
    have hle := (List.dropWhile_sublist (l := t) jsWhitespace).length_le
    rw [h] at hle
    simp at hle

lemma trim_parts {f : Str} (h : jsTrim f = f) :
    f.dropWhile jsWhitespace = f ∧ f.reverse.dropWhile jsWhitespace = f.reverse := by
  have hlen1 : (jsTrim f).length ≤ (f.dropWhile jsWhitespace).length := by
    unfold jsTrim
    calc (((f.dropWhile jsWhitespace).reverse.dropWhile jsWhitespace).reverse).length
        = ((f.dropWhile jsWhitespace).reverse.dropWhile jsWhitespace).length := by
          rw [List.length_reverse]
      _ ≤ (f.dropWhile jsWhitespace).reverse.length :=
          (List.dropWhile_sublist jsWhitespace).length_le
      _ = (f.dropWhile jsWhitespace).length := by rw [List.length_reverse]
  have hlen2 : f.length ≤ (f.dropWhile jsWhitespace).length := by
    calc f.length = (jsTrim f).length := by rw [h]
      _ ≤ (f.dropWhile jsWhitespace).length := hlen1
  have hd : f.dropWhile jsWhitespace = f :=
    (List.dropWhile_suffix jsWhitespace).eq_of_length
      (le_antisymm (List.dropWhile_sublist jsWhitespace).length_le hlen2)
  refine ⟨hd, ?_⟩
  have h2 : (f.reverse.dropWhile jsWhitespace).reverse = f := by
    calc (f.reverse.dropWhile jsWhitespace).reverse
        = ((f.dropWhile jsWhitespace).reverse.dropWhile jsWhitespace).reverse := by rw [hd]
      _ = jsTrim f := rfl
      _ = f := h
  calc f.reverse.dropWhile jsWhitespace
      = ((f.reverse.dropWhile jsWhitespace).reverse).reverse := by rw [List.reverse_reverse]
    _ = f.reverse := by rw [h2]

lemma dropWhile_append_of_ne_nil (p : Char → Bool) (x y : Str)
    (h : x.dropWhile p ≠ []) : (x ++ y).dropWhile p = x.dropWhile p ++ y := by
  induction x with
  | nil => simp [List.dropWhile] at h
  | cons a xs ih =>
    by_cases ha : p a = true
    · rw [List.dropWhile_cons, if_pos ha] at h
      rw [List.cons_append, List.dropWhile_cons, if_pos ha, List.dropWhile_cons, if_pos ha]
      exact ih h
    · rw [List.cons_append, List.dropWhile_cons, if_neg ha, List.dropWhile_cons, if_neg ha,
        List.cons_append]

lemma dropWhile_rev_append (a b : Str) (hb : b ≠ [])
    (h : b.reverse.dropWhile jsWhitespace = b.reverse) :
    (a ++ b).reverse.dropWhile jsWhitespace = (a ++ b).reverse := by
  rw [List.reverse_append]
  cases hbr : b.reverse with
  | nil => exact absurd (by simpa using hbr) hb
  | cons d t =>
    rw [hbr] at h
    have hd : jsWhitespace d = false := head_not_ws_of_dropWhile_eq h
    rw [List.cons_append, List.dropWhile_cons, if_neg (by simp [hd])]

lemma jsTrim_append_newline (x : Str) : jsTrim (x ++ ['\n']) = jsTrim x := by
  unfold jsTrim
  cases hx : x.dropWhile jsWhitespace with
  | nil =>
    have hall : ∀ c ∈ x, jsWhitespace c = true := List.dropWhile_eq_nil_iff.mp hx
    have h2 : (x ++ ['\n']).dropWhile jsWhitespace = [] := by
      refine List.dropWhile_eq_nil_iff.mpr ?_
      intro c hc
      rcases List.mem_append.mp hc with hcx | hcn
      · exact hall c hcx
      · simp at hcn
        rw [hcn]
        decide
    rw [h2]
  | cons c cs =>
    have h2 : (x ++ ['\n']).dropWhile jsWhitespace = (c :: cs) ++ ['\n'] := by
      rw [dropWhile_append_of_ne_nil jsWhitespace x ['\n'] (by rw [hx]; simp), hx]
    rw [h2, List.reverse_append]
    have hnl : jsWhitespace '\n' = true := by decide
    simp only [List.reverse_cons, List.reverse_nil, List.nil_append, List.singleton_append,
      List.dropWhile_cons, if_pos hnl]

lemma jsTrim_eq_self_of (s : Str) (h1 : s.dropWhile jsWhitespace = s)
    (h2 : s.reverse.dropWhile jsWhitespace = s.reverse) : jsTrim s = s := by
  unfold jsTrim
  rw [h1, h2, List.reverse_reverse]

lemma linesJoin_ne_nil (p : Str) (ps : List Str) (hp : p ≠ []) :
    linesJoin (p :: ps) ≠ [] := by
  cases ps with
  | nil => simpa [linesJoin] using hp
  | cons q rs => simp [linesJoin]

lemma rightOk_linesJoin :
    ∀ ps : List Str, ps ≠ [] →
      (∀ p ∈ ps, p ≠ [] ∧ p.reverse.dropWhile jsWhitespace = p.reverse) →
      (linesJoin ps).reverse.dropWhile jsWhitespace = (linesJoin ps).reverse := by
  intro ps
  induction ps with
  | nil => intro h; exact absurd rfl h
  | cons p rest ih =>
    intro _ h
    cases rest with
    | nil => simpa [linesJoin] using (h p (by simp)).2
    | cons q rs =>
      have hjoin : linesJoin (p :: q :: rs) = p ++ '\n' :: linesJoin (q :: rs) := rfl
      have hrest : (linesJoin (q :: rs)).reverse.dropWhile jsWhitespace
          = (linesJoin (q :: rs)).reverse :=
        ih (by simp) (fun x hx => h x (List.mem_cons_of_mem p hx))
      have hne : linesJoin (q :: rs) ≠ [] :=
        linesJoin_ne_nil q rs (h q (by simp)).1
      have hneR : (linesJoin (q :: rs)).reverse.dropWhile jsWhitespace ≠ [] := by
        rw [hrest]
        simpa using hne
      rw [hjoin]
      refine dropWhile_rev_append p ('\n' :: linesJoin (q :: rs)) (by simp) ?_
      rw [List.reverse_cons]
      rw [dropWhile_append_of_ne_nil jsWhitespace _ _ hneR, hrest]

lemma splitLines_no_nl (a : Str) (h : '\n' ∉ a) : splitLines a = [a] := by
  induction a with
  | nil => rfl
  | cons c cs ih =>
    have hc : c ≠ '\n' := fun hc => h (by simp [hc])
    have hcs : '\n' ∉ cs := fun hm => h (List.mem_cons_of_mem c hm)
    rw [splitLines, if_neg hc, ih hcs]

lemma splitLines_append_cons (a b : Str) (h : '\n' ∉ a) :
    splitLines (a ++ '\n' :: b) = a :: splitLines b := by
  induction a with
  | nil =>
    rw [List.nil_append, splitLines, if_pos rfl]
  | cons c cs ih =>
    have hc : c ≠ '\n' := fun hc => h (by simp [hc])
    have hcs : '\n' ∉ cs := fun hm => h (List.mem_cons_of_mem c hm)
    rw [List.cons_append, splitLines, if_neg hc, ih hcs]

lemma splitLines_linesJoin :
    ∀ ps : List Str, ps ≠ [] → (∀ p ∈ ps, '\n' ∉ p) →
      splitLines (linesJoin ps) = ps := by
  intro ps
  induction ps with
  | nil => intro h; exact absurd rfl h
  | cons p rest ih =>
    intro _ h
    cases rest with
    | nil => simpa [linesJoin] using splitLines_no_nl p (h p (by simp))
    | cons q rs =>
      have hjoin : linesJoin (p :: q :: rs) = p ++ '\n' :: linesJoin (q :: rs) := rfl
      rw [hjoin, splitLines_append_cons p _ (h p (by simp)),
        ih (by simp) (fun x hx => h x (List.mem_cons_of_mem p hx))]

lemma parseCsvLineGo_passthrough (a : Str) (h : ∀ c ∈ a, c ≠ ';' ∧ c ≠ '"') :
    ∀ (rest cur : Str), parseCsvLineGo (a ++ rest) cur false = parseCsvLineGo rest (cur ++ a) false := by
  induction a with
  | nil => intro rest cur; rw [List.nil_append, List.append_nil]
  | cons c cs ih =>
    intro rest cur
    have hc := h c (by simp)
    have hcs : ∀ x ∈ cs, x ≠ ';' ∧ x ≠ '"' := fun x hx => h x (List.mem_cons_of_mem c hx)
    rw [List.cons_append, parseCsvLineGo, if_neg hc.2,
      if_neg (by simp [hc.1]), ih hcs rest (cur ++ [c]), List.append_assoc]
    rfl

lemma goodField_spec (f : Str) (h : goodField f = true) :
    f ≠ [] ∧ (∀ c ∈ f, c ≠ ';' ∧ c ≠ '"' ∧ c ≠ '\n') ∧ jsTrim f = f := by
  unfold goodField at h
  simp only [Bool.and_eq_true, List.all_eq_true, Bool.not_eq_true', List.isEmpty_iff,
    beq_iff_eq, bne_iff_ne, ne_eq] at h
  obtain ⟨⟨hne, hall⟩, htrim⟩ := h
  refine ⟨by simpa using hne, fun c hc => ?_, htrim⟩
  have := hall c hc
  simp only [Bool.and_eq_true, bne_iff_ne, ne_eq] at this
  exact ⟨this.1.1, this.1.2, this.2⟩

lemma map_semicolon_id (f : Str) (h : ∀ c ∈ f, c ≠ ';') :
    f.map (fun c => if c = ';' then ',' else c) = f := by
  have hmap : f.map (fun c => if c = ';' then ',' else c) = f.map id :=
    List.map_congr_left (fun c hc => if_neg (h c hc))
  rw [hmap, List.map_id]

lemma rows_join (rows : List Str) :
    ∀ hd : Str, hd ++ '\n' :: (rows.map (fun r => r ++ ['\n'])).flatten
      = linesJoin (hd :: rows) ++ ['\n'] := by
  induction rows with
  | nil =>
    intro hd
    simp [linesJoin]
  | cons r rs ih =>
    intro hd
    have hstep : (((r ++ ['\n']) :: rs.map (fun x => x ++ ['\n']))).flatten
        = r ++ '\n' :: (rs.map (fun x => x ++ ['\n'])).flatten := by
      simp
    calc hd ++ '\n' :: ((r :: rs).map (fun x => x ++ ['\n'])).flatten
        = hd ++ '\n' :: (r ++ '\n' :: (rs.map (fun x => x ++ ['\n'])).flatten) := by
          rw [List.map_cons, hstep]
      _ = hd ++ '\n' :: (linesJoin (r :: rs) ++ ['\n']) := by rw [ih r]
      _ = (hd ++ '\n' :: linesJoin (r :: rs)) ++ ['\n'] := by simp
      _ = linesJoin (hd :: r :: rs) ++ ['\n'] := rfl

lemma generateCSV_join (folders : List CsvEntry)
    (hg : ∀ e ∈ folders, goodField e.nome = true ∧ goodField e.caminho = true) :
    generateCSV folders = linesJoin (strL "nome;caminho" :: folders.map rowCore) ++ ['\n'] := by
  unfold generateCSV
  have hmap : folders.map (fun f =>
        (f.nome.map (fun c => if c = ';' then ',' else c)) ++ [';'] ++
        (f.caminho.map (fun c => if c = ';' then ',' else c)) ++ ['\n'])
      = folders.map (fun f => rowCore f ++ ['\n']) := by
    refine List.map_congr_left (fun e he => ?_)
    obtain ⟨hn, hc⟩ := hg e he
    obtain ⟨_, hns, _⟩ := goodField_spec e.nome hn
    obtain ⟨_, hcs, _⟩ := goodField_spec e.caminho hc
    rw [map_semicolon_id e.nome (fun c hcm => (hns c hcm).1),
      map_semicolon_id e.caminho (fun c hcm => (hcs c hcm).1)]
    simp [rowCore]
  rw [hmap]
  have hmm : folders.map (fun f => rowCore f ++ ['\n'])
      = (folders.map rowCore).map (fun r => r ++ ['\n']) := by
    rw [List.map_map]
    rfl
  rw [hmm, ← rows_join (folders.map rowCore) (strL "nome;caminho")]
  simp

lemma rowCore_ne_nil (e : CsvEntry) (hn : goodField e.nome = true) : rowCore e ≠ [] := by
  obtain ⟨hne, _, _⟩ := goodField_spec e.nome hn
  unfold rowCore
  cases hx : e.nome with
  | nil => exact absurd hx hne
  | cons c t => simp

lemma rowCore_trim (e : CsvEntry) (hn : goodField e.nome = true)
    (hc : goodField e.caminho = true) : jsTrim (rowCore e) = rowCore e := by
  obtain ⟨hnne, _, hntrim⟩ := goodField_spec e.nome hn
  obtain ⟨hcne, _, hctrim⟩ := goodField_spec e.caminho hc
  refine jsTrim_eq_self_of (rowCore e) ?_ ?_
  · cases hx : e.nome with
    | nil => exact absurd hx hnne
    | cons c t =>
      have hhead : jsWhitespace c = false := by
        have := (trim_parts hntrim).1
        rw [hx] at this
        exact head_not_ws_of_dropWhile_eq this
      show (rowCore e).dropWhile jsWhitespace = rowCore e
      unfold rowCore
      rw [hx, List.cons_append, List.dropWhile_cons, if_neg (by simp [hhead])]
  · show (rowCore e).reverse.dropWhile jsWhitespace = (rowCore e).reverse
    unfold rowCore
    rw [List.append_cons]
    exact dropWhile_rev_append (e.nome ++ [';']) e.caminho hcne (trim_parts hctrim).2

lemma parseCsvLine_rowCore (e : CsvEntry) (hn : goodField e.nome = true)
    (hc : goodField e.caminho = true) :
    parseCsvLine (rowCore e) = [e.nome, e.caminho] := by
  obtain ⟨_, hns, _⟩ := goodField_spec e.nome hn
  obtain ⟨_, hcs, _⟩ := goodField_spec e.caminho hc
  have hcam : parseCsvLineGo e.caminho [] false = [e.caminho] := by
    have h1 := parseCsvLineGo_passthrough e.caminho
      (fun c hcm => ⟨(hcs c hcm).1, (hcs c hcm).2.1⟩) [] []
    rw [List.append_nil, List.nil_append] at h1
    exact h1
  unfold parseCsvLine rowCore
  rw [parseCsvLineGo_passthrough e.nome (fun c hcm => ⟨(hns c hcm).1, (hns c hcm).2.1⟩),
    parseCsvLineGo, if_neg (by decide), if_pos (by simp), List.nil_append, hcam]

lemma collectCsvEntries_rows :
    ∀ (folders : List CsvEntry) (i : Nat), i ≠ 0 →
      (∀ e ∈ folders, goodField e.nome = true ∧ goodField e.caminho = true) →
      collectCsvEntries (folders.map rowCore) i = folders := by
  intro folders
  induction folders with
  | nil => intro i _ _; rfl
  | cons e es ih =>
    intro i hi hg
    obtain ⟨hn, hc⟩ := hg e (by simp)
    obtain ⟨hnne, _, hntrim⟩ := goodField_spec e.nome hn
    obtain ⟨hcne, _, _⟩ := goodField_spec e.caminho hc
    rw [List.map_cons, collectCsvEntries]
    simp only [rowCore_trim e hn hc]
    rw [if_neg (rowCore_ne_nil e hn),
      if_neg (by intro hh; exact hi hh.1)]
    simp only [parseCsvLine_rowCore e hn hc]
    rw [if_neg (by simp)]
    simp only [List.getD]
    simp only [show ([e.nome, e.caminho].get? 0).getD [] = e.nome from rfl,
      show ([e.nome, e.caminho].get? 1).getD [] = e.caminho from rfl]
    rw [hntrim, (goodField_spec e.caminho hc).2.2,
      if_neg (by simp [hnne, hcne]),
      ih (i + 1) (by omega) (fun x hx => hg x (List.mem_cons_of_mem e hx))]

lemma collectCsvEntries_header (rest : List Str) :
    collectCsvEntries (strL "nome;caminho" :: rest) 0 = collectCsvEntries rest 1 := by
  rfl

/-- C4 counterexample: a folder record whose name contains a semicolon
does not survive the round trip — the generator rewrites the semicolon to
a comma (it never quotes), so re-parsing yields a different name. -/
theorem c4_counterexample :
    readCsvFile (generateCSV [⟨strL "A;B", strL "/data"⟩])
      = .ok [⟨strL "A,B", strL "/data"⟩] ∧
    readCsvFile (generateCSV [⟨strL "A;B", strL "/data"⟩])
      ≠ .ok [⟨strL "A;B", strL "/data"⟩] := by
  have h : readCsvFile (generateCSV [⟨strL "A;B", strL "/data"⟩])
      = .ok [⟨strL "A,B", strL "/data"⟩] := by rfl
  refine ⟨h, fun hc => ?_⟩
  have h2 : [(⟨strL "A,B", strL "/data"⟩ : CsvEntry)] = [⟨strL "A;B", strL "/data"⟩] :=
    Except.ok.inj (h.symm.trans hc)
  exact absurd h2 (by decide)

/-- C4 amended: the round trip holds for every non-empty record list
whose names and paths are non-empty, contain no semicolon, double quote
or newline, and are unchanged by trimming: generating the CSV and
re-parsing it returns exactly the original records (commas, as in the
specification's example, are preserved verbatim); records outside these
conditions (semicolons rewritten to commas by the generator, quotes
dropped by the parser, trimmed whitespace) are not restored. -/
theorem c4_round_trip (folders : List CsvEntry) (hne : folders ≠ [])
    (hg : ∀ e ∈ folders, goodField e.nome = true ∧ goodField e.caminho = true) :
    readCsvFile (generateCSV folders) = .ok folders := by
  have hpieces : ∀ p ∈ strL "nome;caminho" :: folders.map rowCore,
      p ≠ [] ∧ p.reverse.dropWhile jsWhitespace = p.reverse ∧ '\n' ∉ p := by
    intro p hp
    rcases List.mem_cons.mp hp with rfl | hp
    · exact ⟨by decide, by decide, by decide⟩
    · rcases List.mem_map.mp hp with ⟨e, he, rfl⟩
      obtain ⟨hn, hc⟩ := hg e he
      obtain ⟨_, hns, _⟩ := goodField_spec e.nome hn
      obtain ⟨_, hcs, _⟩ := goodField_spec e.caminho hc
      refine ⟨rowCore_ne_nil e hn, (trim_parts (rowCore_trim e hn hc)).2, ?_⟩
      intro hmem
      unfold rowCore at hmem
      rcases List.mem_append.mp hmem with hm | hm
      · exact (hns '\n' hm).2.2 rfl
      · rcases List.mem_cons.mp hm with hm | hm
        · exact absurd hm.symm (by decide)
        · exact (hcs '\n' hm).2.2 rfl
  have htrim : jsTrim (generateCSV folders)
      = linesJoin (strL "nome;caminho" :: folders.map rowCore) := by
    rw [generateCSV_join folders hg, jsTrim_append_newline]
    refine jsTrim_eq_self_of _ ?_ ?_
    · cases hm : folders.map rowCore with
      | nil =>
        show (linesJoin [strL "nome;caminho"]).dropWhile jsWhitespace = _
        decide
      | cons r rs =>
        have hjoin : linesJoin (strL "nome;caminho" :: r :: rs)
            = strL "nome;caminho" ++ '\n' :: linesJoin (r :: rs) := rfl
        rw [hjoin]
        rw [show strL "nome;caminho" ++ '\n' :: linesJoin (r :: rs)
            = 'n' :: (strL "ome;caminho" ++ '\n' :: linesJoin (r :: rs)) from rfl]
        rw [List.dropWhile_cons, if_neg (by decide)]
    · exact rightOk_linesJoin _ (by simp)
        (fun p hp => ⟨(hpieces p hp).1, (hpieces p hp).2.1⟩)
  have hsplit : splitLines (jsTrim (generateCSV folders))
      = strL "nome;caminho" :: folders.map rowCore := by
    rw [htrim]
    exact splitLines_linesJoin _ (by simp) (fun p hp => (hpieces p hp).2.2)
  unfold readCsvFile
  rw [hsplit]
  rw [if_neg (by simp)]
  rw [collectCsvEntries_header, collectCsvEntries_rows folders 1 (by omega) hg,
    if_neg hne]

/-- Witness for C4 at the specification's example record. -/
theorem c4_witness :
    readCsvFile (generateCSV [⟨strL "Report, Q1", strL "/data"⟩])
      = .ok [⟨strL "Report, Q1", strL "/data"⟩] :=
  c4_round_trip [⟨strL "Report, Q1", strL "/data"⟩] (by decide)
    (by intro e he; simp at he; rw [he]; exact ⟨by decide, by decide⟩)

lemma dropWhile_append_nil (p : Char → Bool) (x y : Str) (h : x.dropWhile p = []) :
    (x ++ y).dropWhile p = y.dropWhile p := by
  induction x with
  | nil => rfl
  | cons a xs ih =>
    rw [List.dropWhile_cons] at h
    by_cases ha : p a = true
    · rw [if_pos ha] at h
      rw [List.cons_append, List.dropWhile_cons, if_pos ha]
      exact ih h
    · rw [if_neg ha] at h
      exact absurd h (by simp)

lemma dirOfPath_under (d s : Str) (hs : ∀ c ∈ s, c ≠ '/') :
    dirOfPath (d ++ '/' :: s) = d := by
  unfold dirOfPath
  have hrev : (d ++ '/' :: s).reverse = s.reverse ++ '/' :: d.reverse := by
    rw [List.append_cons, List.reverse_append, List.reverse_append]
    simp
  rw [hrev]
  have hdrop : s.reverse.dropWhile (fun c => c ≠ '/') = [] :=
    List.dropWhile_eq_nil_iff.mpr (fun c hc => by
      simp only [decide_eq_true_iff]
      exact hs c (List.mem_reverse.mp hc))
  rw [dropWhile_append_nil _ _ _ hdrop, List.dropWhile_cons, if_neg (by simp)]
  exact List.reverse_reverse d

lemma epubOutputName_no_slash (nome : Str) (h : ∀ c ∈ nome, c ≠ '/') :
    ∀ c ∈ epubOutputName nome, c ≠ '/' := by
  unfold epubOutputName
  by_cases hs : (strL ".epub").isSuffixOf nome = true
  · rw [if_pos hs]
    exact h
  · rw [if_neg hs]
    intro c hc
    rcases List.mem_append.mp hc with hm | hm
    · exact h c hm
    · revert hm
      have : ∀ c ∈ strL ".epub", c ≠ '/' := by decide
      exact this c

lemma pdfOutputName_no_slash (nome : Str) (h : ∀ c ∈ nome, c ≠ '/') :
    ∀ c ∈ pdfOutputName nome, c ≠ '/' := by
  unfold pdfOutputName
  by_cases hs : (strL ".pdf").isSuffixOf nome = true
  · rw [if_pos hs]
    exact h
  · rw [if_neg hs]
    intro c hc
    rcases List.mem_append.mp hc with hm | hm
    · exact h c hm
    · revert hm
      have : ∀ c ∈ strL ".pdf", c ≠ '/' := by decide
      exact this c

lemma dirOfPath_epub (nome : Str) (h : ∀ c ∈ nome, c ≠ '/') :
    dirOfPath (strL "epub/" ++ epubOutputName nome) = strL "epub" := by
  have hform : strL "epub/" ++ epubOutputName nome
      = strL "epub" ++ '/' :: epubOutputName nome := rfl
  rw [hform]
  exact dirOfPath_under _ _ (epubOutputName_no_slash nome h)

lemma dirOfPath_pdf (nome : Str) (h : ∀ c ∈ nome, c ≠ '/') :
    dirOfPath (strL "pdf/" ++ pdfOutputName nome) = strL "pdf" := by
  have hform : strL "pdf/" ++ pdfOutputName nome
      = strL "pdf" ++ '/' :: pdfOutputName nome := rfl
  rw [hform]
  exact dirOfPath_under _ _ (pdfOutputName_no_slash nome h)

lemma mkdirRec_contains_self (w : World) (d : Str) :
    (mkdirRec w d).dirs.contains d = true := by
  unfold mkdirRec
  by_cases h : w.dirs.contains d = true
  · rw [if_pos h]
    exact h
  · rw [if_neg h]
    simp

lemma checkAll_ok (w : World) (paths : List Str)
    (h : ∀ p ∈ paths, w.missing.contains p = false) : checkAll w paths = .ok () := by
  unfold checkAll
  rw [List.find?_eq_none.mpr (fun x hx => by rw [h x hx]; simp)]

lemma mkImagesInfo_paths (caminho nome : Str) (fIdx total : Nat) :
    ∀ (files : List Str) (ii : Nat),
      (mkImagesInfo caminho nome fIdx total files ii).map MergedImageRecord.path
        = files.map (fun f => pathJoin caminho f) := by
  intro files
  induction files with
  | nil => intro ii; rfl
  | cons f fs ih =>
    intro ii
    rw [mkImagesInfo, List.map_cons, List.map_cons, ih (ii + 1)]

lemma mkImagesInfo_length (caminho nome : Str) (fIdx total : Nat) :
    ∀ (files : List Str) (ii : Nat),
      (mkImagesInfo caminho nome fIdx total files ii).length = files.length := by
  intro files
  induction files with
  | nil => intro ii; rfl
  | cons f fs ih =>
    intro ii
    rw [mkImagesInfo, List.length_cons, List.length_cons, ih (ii + 1)]

lemma sortFiles_length (lc : Str → Str → Int) (files : List Str) :
    (sortFilesNumerically lc files).length = files.length :=
  (insertionSortLe_perm _ files).length_eq

lemma epub_entry_success (lc : Str → Str → Int) (w : World) (e : CsvEntry)
    (hdir : w.dirs.contains e.caminho = true)
    (himg : (w.listing e.caminho).filter isImageFile ≠ [])
    (hmiss : ∀ p ∈ (sortFilesNumerically lc ((w.listing e.caminho).filter isImageFile)).map
        (fun f => pathJoin e.caminho f), w.missing.contains p = false)
    (hsl : ∀ c ∈ e.nome, c ≠ '/') :
    epubProcessCsvEntry lc w e
      = ({ mkdirRec w (strL "epub") with
            outFiles := (strL "epub/" ++ epubOutputName e.nome) :: w.outFiles },
         .success (strL "epub/" ++ epubOutputName e.nome)) := by
  have h1 : validateFolder w e.caminho = .ok () := by
    unfold validateFolder
    rw [if_pos hdir]
  have h2 : readImageFilesStrict w e.caminho = .ok ((w.listing e.caminho).filter isImageFile) := by
    unfold readImageFilesStrict
    rw [if_neg (by simpa [List.length_eq_zero] using himg)]
  have h3 : checkAll w ((sortFilesNumerically lc ((w.listing e.caminho).filter isImageFile)).map
      (fun f => pathJoin e.caminho f)) = .ok () := checkAll_ok w _ hmiss
  have h4 : writeOut (mkdirRec w (strL "epub")) (strL "epub/" ++ epubOutputName e.nome)
      = .ok { mkdirRec w (strL "epub") with
          outFiles := (strL "epub/" ++ epubOutputName e.nome) :: w.outFiles } := by
    unfold writeOut
    rw [if_pos (Or.inr (by rw [dirOfPath_epub e.nome hsl]; exact mkdirRec_contains_self w _))]
    rfl
  simp only [epubProcessCsvEntry, h1, h2, h3, h4]

lemma collectGo_cons_empty (lc : Str → Str → Int) (w : World) (e : CsvEntry)
    (es : List CsvEntry) (i : Nat)
    (hdir : w.dirs.contains e.caminho = true)
    (hempty : (w.listing e.caminho).filter isImageFile = []) :
    collectAllImagesGo lc w (e :: es) i = collectAllImagesGo lc w es (i + 1) := by
  have h1 : validateFolder w e.caminho = .ok () := by
    unfold validateFolder
    rw [if_pos hdir]
  simp only [collectAllImagesGo, readImageFilesLoose, h1, hempty]
  simp

lemma collectGo_cons_good (lc : Str → Str → Int) (w : World) (e : CsvEntry)
    (es : List CsvEntry) (i : Nat)
    (hdir : w.dirs.contains e.caminho = true)
    (himg : (w.listing e.caminho).filter isImageFile ≠ [])
    (hmiss : ∀ p ∈ (sortFilesNumerically lc ((w.listing e.caminho).filter isImageFile)).map
        (fun f => pathJoin e.caminho f), w.missing.contains p = false) :
    collectAllImagesGo lc w (e :: es) i
      = mkImagesInfo e.caminho e.nome i
          (sortFilesNumerically lc ((w.listing e.caminho).filter isImageFile)).length
          (sortFilesNumerically lc ((w.listing e.caminho).filter isImageFile)) 1
        ++ collectAllImagesGo lc w es (i + 1) := by
  have h1 : validateFolder w e.caminho = .ok () := by
    unfold validateFolder
    rw [if_pos hdir]
  have hlen0 : ¬ ((w.listing e.caminho).filter isImageFile).length = 0 := by
    simpa [List.length_eq_zero] using himg
  have hchk : checkAll w ((mkImagesInfo e.caminho e.nome i
      (sortFilesNumerically lc ((w.listing e.caminho).filter isImageFile)).length
      (sortFilesNumerically lc ((w.listing e.caminho).filter isImageFile)) 1).map
        MergedImageRecord.path) = .ok () := by
    rw [mkImagesInfo_paths]
    exact checkAll_ok w _ hmiss
  simp only [collectAllImagesGo, readImageFilesLoose, h1, if_neg hlen0, hchk]

lemma writeOut_epub (w : World) (nome : Str) (h : ∀ c ∈ nome, c ≠ '/') :
    writeOut (mkdirRec w (strL "epub")) (strL "epub/" ++ epubOutputName nome)
      = .ok { mkdirRec w (strL "epub") with
          outFiles := (strL "epub/" ++ epubOutputName nome) :: w.outFiles } := by
  unfold writeOut
  rw [if_pos (Or.inr (by rw [dirOfPath_epub nome h]; exact mkdirRec_contains_self w _))]
  rfl

lemma writeOut_pdf (w : World) (nome : Str) (h : ∀ c ∈ nome, c ≠ '/') :
    writeOut (mkdirRec w (strL "pdf")) (strL "pdf/" ++ pdfOutputName nome)
      = .ok { mkdirRec w (strL "pdf") with
          outFiles := (strL "pdf/" ++ pdfOutputName nome) :: w.outFiles } := by
  unfold writeOut
  rw [if_pos (Or.inr (by rw [dirOfPath_pdf nome h]; exact mkdirRec_contains_self w _))]
  rfl

lemma collect_single_ok (lc : Str → Str → Int) (w : World) (e : CsvEntry)
    (hedir : w.dirs.contains e.caminho = true)
    (himg : (w.listing e.caminho).filter isImageFile ≠ [])
    (hmiss : ∀ p ∈ (sortFilesNumerically lc ((w.listing e.caminho).filter isImageFile)).map
        (fun f => pathJoin e.caminho f), w.missing.contains p = false) :
    collectAllImages lc w [e]
      = .ok (mkImagesInfo e.caminho e.nome 1
          (sortFilesNumerically lc ((w.listing e.caminho).filter isImageFile)).length
          (sortFilesNumerically lc ((w.listing e.caminho).filter isImageFile)) 1) := by
  unfold collectAllImages
  rw [collectGo_cons_good lc w e [] 1 hedir himg hmiss]
  have hnil : collectAllImagesGo lc w [] 2 = [] := rfl
  rw [hnil, List.append_nil]
  rw [if_neg (by
    rw [mkImagesInfo_length, sortFiles_length]
    simpa [List.length_eq_zero] using himg)]

lemma pdf_entry_no_dir (lc : Str → Str → Int) (w : World) (e : CsvEntry)
    (hnodir : w.dirs.contains (strL "pdf") = false)
    (hsl : ∀ c ∈ e.nome, c ≠ '/') :
    ∃ err, pdfProcessCsvEntry lc w e = (w, .failure err) := by
  have hwrite : writeOut w (strL "pdf/" ++ pdfOutputName e.nome) = .error .writeFailedError := by
    unfold writeOut
    rw [if_neg ?_]
    intro hor
    rcases hor with hor | hor
    · rw [dirOfPath_pdf e.nome hsl] at hor
      exact absurd hor (by decide)
    · rw [dirOfPath_pdf e.nome hsl] at hor
      rw [hnodir] at hor
      exact Bool.noConfusion hor
  unfold pdfProcessCsvEntry
  cases h1 : validateFolder w e.caminho with
  | error err => exact ⟨err, rfl⟩
  | ok u =>
    cases h2 : readImageFilesStrict w e.caminho with
    | error err => exact ⟨err, rfl⟩
    | ok imageFiles =>
      cases h3 : checkAll w ((sortFilesNumerically lc imageFiles).map
          (fun f => pathJoin e.caminho f)) with
      | error err => exact ⟨err, by simp only [h3]⟩
      | ok v =>
        refine ⟨.writeFailedError, ?_⟩
        simp only [h3, hwrite]

lemma pdf_entries_no_dir (lc : Str → Str → Int) (w : World) (entries : List CsvEntry)
    (hnodir : w.dirs.contains (strL "pdf") = false)
    (hsl : ∀ x ∈ entries, ∀ c ∈ x.nome, c ≠ '/') :
    (pdfProcessCsvEntries lc w entries).1 = w ∧
    ∀ o ∈ (pdfProcessCsvEntries lc w entries).2, ∀ p, o ≠ .success p := by
  induction entries with
  | nil => exact ⟨rfl, by simp [pdfProcessCsvEntries]⟩
  | cons e es ih =>
    obtain ⟨err, he⟩ := pdf_entry_no_dir lc w e hnodir (hsl e (by simp))
    have ihr := ih (fun x hx => hsl x (List.mem_cons_of_mem e hx))
    refine ⟨?_, ?_⟩
    · simp only [pdfProcessCsvEntries, he]
      exact ihr.1
    · simp only [pdfProcessCsvEntries, he]
      intro o ho p
      rcases List.mem_cons.mp ho with rfl | ho
      · exact fun hp => EntryOutcome.noConfusion hp
      · exact ihr.2 o ho p

lemma pdf_entry_out_prefixed (lc : Str → Str → Int) (w : World) (e : CsvEntry) :
    ∀ p, (pdfProcessCsvEntry lc w e).2 = .success p →
      p = strL "pdf/" ++ pdfOutputName e.nome := by
  unfold pdfProcessCsvEntry
  cases h1 : validateFolder w e.caminho with
  | error err => exact fun p hp => EntryOutcome.noConfusion hp
  | ok u =>
    cases h2 : readImageFilesStrict w e.caminho with
    | error err => exact fun p hp => EntryOutcome.noConfusion hp
    | ok imageFiles =>
      cases h3 : checkAll w ((sortFilesNumerically lc imageFiles).map
          (fun f => pathJoin e.caminho f)) with
      | error err =>
        simp only [h3]
        exact fun p hp => EntryOutcome.noConfusion hp
      | ok v =>
        simp only [h3]
        cases h4 : writeOut w (strL "pdf/" ++ pdfOutputName e.nome) with
        | error err => exact fun p hp => EntryOutcome.noConfusion hp
        | ok w2 => exact fun p hp => (EntryOutcome.success.inj hp).symm

lemma pdf_entries_out_prefixed (lc : Str → Str → Int) :
    ∀ (entries : List CsvEntry) (w : World),
      ∀ o ∈ (pdfProcessCsvEntries lc w entries).2, ∀ p, o = .success p →
        (strL "pdf/").isPrefixOf p = true := by
  intro entries
  induction entries with
  | nil =>
    intro w o ho
    simp [pdfProcessCsvEntries] at ho
  | cons e es ih =>
    intro w o ho p hp
    rcases hpair : pdfProcessCsvEntry lc w e with ⟨w1, o1⟩
    rw [show pdfProcessCsvEntries lc w (e :: es)
        = (let r := pdfProcessCsvEntries lc w1 es; (r.1, o1 :: r.2)) from by
      simp only [pdfProcessCsvEntries, hpair]] at ho
    simp only at ho
    rcases List.mem_cons.mp ho with rfl | ho
    · have h1 : (pdfProcessCsvEntry lc w e).2 = .success p := by rw [hpair, hp]
      have h2 := pdf_entry_out_prefixed lc w e p h1
      rw [h2, List.isPrefixOf_iff_prefix]
      exact List.prefix_append _ _
    · exact ih w1 o ho p hp

/-- C7: a folder whose filtered listing is empty makes the single-folder
scan fail with the no-images error, while the EPUB batch loop marks that
entry failed and continues (the filesystem untouched), the batch exiting
0 with the other entry succeeding; the merge collector contributes
nothing for the empty folder, keeps the other folder's images, and the
merged run also exits 0. -/
theorem c7_empty_folder_asymmetry
    (lc : Str → Str → Int) (w : World) (content : Str)
    (eEmpty eGood : CsvEntry) (outputName : Str)
    (hedir : w.dirs.contains eEmpty.caminho = true)
    (hempty : (w.listing eEmpty.caminho).filter isImageFile = [])
    (hgdir : w.dirs.contains eGood.caminho = true)
    (hgimg : (w.listing eGood.caminho).filter isImageFile ≠ [])
    (hgmiss : ∀ p ∈ (sortFilesNumerically lc ((w.listing eGood.caminho).filter isImageFile)).map
        (fun f => pathJoin eGood.caminho f), w.missing.contains p = false)
    (hgsl : ∀ c ∈ eGood.nome, c ≠ '/')
    (hosl : ∀ c ∈ outputName, c ≠ '/')
    (hparse : readCsvFile content = .ok [eEmpty, eGood]) :
    readImageFilesStrict w eEmpty.caminho = .error .noImagesFoundError ∧
    epubProcessCsvEntry lc w eEmpty = (w, .failure .noImagesFoundError) ∧
    (epubBatchRun lc w content).outcomes
      = [.failure .noImagesFoundError,
         .success (strL "epub/" ++ epubOutputName eGood.nome)] ∧
    (epubBatchRun lc w content).exitCode = 0 ∧
    collectAllImages lc w [eEmpty, eGood]
      = .ok (mkImagesInfo eGood.caminho eGood.nome 2
          (sortFilesNumerically lc ((w.listing eGood.caminho).filter isImageFile)).length
          (sortFilesNumerically lc ((w.listing eGood.caminho).filter isImageFile)) 1) ∧
    (mergeEpubRun lc w content outputName).2 = 0 := by
  have hA : readImageFilesStrict w eEmpty.caminho = .error .noImagesFoundError := by
    unfold readImageFilesStrict
    rw [hempty]
    rfl
  have h1 : validateFolder w eEmpty.caminho = .ok () := by
    unfold validateFolder
    rw [if_pos hedir]
  have hB : epubProcessCsvEntry lc w eEmpty = (w, .failure .noImagesFoundError) := by
    simp only [epubProcessCsvEntry, h1, hA]
  have hGood := epub_entry_success lc w eGood hgdir hgimg hgmiss hgsl
  have hents : epubProcessCsvEntries lc w [eEmpty, eGood]
      = ({ mkdirRec w (strL "epub") with
            outFiles := (strL "epub/" ++ epubOutputName eGood.nome) :: w.outFiles },
         [.failure .noImagesFoundError,
          .success (strL "epub/" ++ epubOutputName eGood.nome)]) := by
    simp only [epubProcessCsvEntries, hB, hGood]
  have hbr : epubBatchRun lc w content
      = ⟨{ mkdirRec w (strL "epub") with
            outFiles := (strL "epub/" ++ epubOutputName eGood.nome) :: w.outFiles },
         [.failure .noImagesFoundError,
          .success (strL "epub/" ++ epubOutputName eGood.nome)], 0⟩ := by
    simp only [epubBatchRun, hparse, hents]
  have hcoll : collectAllImages lc w [eEmpty, eGood]
      = .ok (mkImagesInfo eGood.caminho eGood.nome 2
          (sortFilesNumerically lc ((w.listing eGood.caminho).filter isImageFile)).length
          (sortFilesNumerically lc ((w.listing eGood.caminho).filter isImageFile)) 1) := by
    unfold collectAllImages
    rw [collectGo_cons_empty lc w eEmpty [eGood] 1 hedir hempty,
      collectGo_cons_good lc w eGood [] 2 hgdir hgimg hgmiss]
    have hnil : collectAllImagesGo lc w [] 3 = [] := rfl
    rw [hnil, List.append_nil]
    rw [if_neg (by
      rw [mkImagesInfo_length, sortFiles_length]
      simpa [List.length_eq_zero] using hgimg)]
  have hmerge : (mergeEpubRun lc w content outputName).2 = 0 := by
    simp only [mergeEpubRun, hparse, hcoll, writeOut_epub w outputName hosl]
  exact ⟨hA, hB, by rw [hbr], by rw [hbr], hcoll, hmerge⟩

/-- Witness for C7: an imageless folder and a two-image folder in one
batch. -/
theorem c7_witness :
    readImageFilesStrict wAsym (strL "vazia") = .error .noImagesFoundError ∧
    epubProcessCsvEntry icuFoldCompare wAsym ⟨strL "vol0", strL "vazia"⟩
      = (wAsym, .failure .noImagesFoundError) ∧
    (epubBatchRun icuFoldCompare wAsym (strL "nome;caminho\nvol0;vazia\nvol1;cheia")).outcomes
      = [.failure .noImagesFoundError,
         .success (strL "epub/" ++ epubOutputName (strL "vol1"))] ∧
    (epubBatchRun icuFoldCompare wAsym (strL "nome;caminho\nvol0;vazia\nvol1;cheia")).exitCode = 0 ∧
    collectAllImages icuFoldCompare wAsym [⟨strL "vol0", strL "vazia"⟩, ⟨strL "vol1", strL "cheia"⟩]
      = .ok (mkImagesInfo (strL "cheia") (strL "vol1") 2
          (sortFilesNumerically icuFoldCompare ((wAsym.listing (strL "cheia")).filter isImageFile)).length
          (sortFilesNumerically icuFoldCompare ((wAsym.listing (strL "cheia")).filter isImageFile)) 1) ∧
    (mergeEpubRun icuFoldCompare wAsym (strL "nome;caminho\nvol0;vazia\nvol1;cheia") (strL "tudo")).2 = 0 :=
  c7_empty_folder_asymmetry icuFoldCompare wAsym
    (strL "nome;caminho\nvol0;vazia\nvol1;cheia")
    ⟨strL "vol0", strL "vazia"⟩ ⟨strL "vol1", strL "cheia"⟩ (strL "tudo")
    (by decide) (by decide) (by decide) (by decide) (by decide) (by decide) (by decide)
    (by rfl)

/-- C8 counterexample: a CSV batch PDF run on a filesystem without a
pre-existing pdf directory has a valid entry with an image, yet produces
no output at all — the write fails because processCsvEntries of the PDF
converter never creates the pdf directory. -/
theorem c8_counterexample :
    wOutDirs.dirs.contains (strL "pdf") = false ∧
    (pdfBatchRun icuFoldCompare wOutDirs (strL "nome;caminho\ndoc;imgs")).outcomes
      = [.failure .writeFailedError] ∧
    (pdfBatchRun icuFoldCompare wOutDirs (strL "nome;caminho\ndoc;imgs")).world.outFiles
      = [] ∧
    (pdfBatchRun icuFoldCompare wOutDirs (strL "nome;caminho\ndoc;imgs")).exitCode = 0 :=
  ⟨by decide, by rfl, by rfl, by rfl⟩

/-- C8 amended: batch PDF outputs all live under pdf/ and EPUB outputs
under epub/, and the EPUB batch converter and both merge converters
create their output subdirectory when it is absent, so their runs still
produce outputs; the CSV batch PDF converter however performs no such
mkdir, so with no pre-existing pdf directory it leaves the filesystem
unchanged and no entry can succeed. -/
theorem c8_output_dir_creation
    (lc : Str → Str → Int) (w w2 : World) (entries : List CsvEntry) (e : CsvEntry)
    (content outputName : Str)
    (hnodirP : w.dirs.contains (strL "pdf") = false)
    (hslN : ∀ x ∈ entries, ∀ c ∈ x.nome, c ≠ '/')
    (hedir : w.dirs.contains e.caminho = true)
    (himg : (w.listing e.caminho).filter isImageFile ≠ [])
    (hmiss : ∀ p ∈ (sortFilesNumerically lc ((w.listing e.caminho).filter isImageFile)).map
        (fun f => pathJoin e.caminho f), w.missing.contains p = false)
    (hsl : ∀ c ∈ e.nome, c ≠ '/')
    (hosl : ∀ c ∈ outputName, c ≠ '/')
    (hparse : readCsvFile content = .ok [e]) :
    (∀ o ∈ (pdfProcessCsvEntries lc w2 entries).2, ∀ p, o = .success p →
        (strL "pdf/").isPrefixOf p = true) ∧
    (pdfProcessCsvEntries lc w entries).1 = w ∧
    (∀ o ∈ (pdfProcessCsvEntries lc w entries).2, ∀ p, o ≠ .success p) ∧
    epubProcessCsvEntry lc w e
      = ({ mkdirRec w (strL "epub") with
            outFiles := (strL "epub/" ++ epubOutputName e.nome) :: w.outFiles },
         .success (strL "epub/" ++ epubOutputName e.nome)) ∧
    (mergePdfRun lc w content outputName).2 = 0 ∧
    (mergePdfRun lc w content outputName).1.outFiles
      = (strL "pdf/" ++ pdfOutputName outputName) :: w.outFiles ∧
    (mergeEpubRun lc w content outputName).2 = 0 ∧
    (mergeEpubRun lc w content outputName).1.outFiles
      = (strL "epub/" ++ epubOutputName outputName) :: w.outFiles := by
  have hmp : mergePdfRun lc w content outputName
      = ({ mkdirRec w (strL "pdf") with
            outFiles := (strL "pdf/" ++ pdfOutputName outputName) :: w.outFiles }, 0) := by
    simp only [mergePdfRun, hparse, collect_single_ok lc w e hedir himg hmiss,
      writeOut_pdf w outputName hosl]
  have hme : mergeEpubRun lc w content outputName
      = ({ mkdirRec w (strL "epub") with
            outFiles := (strL "epub/" ++ epubOutputName outputName) :: w.outFiles }, 0) := by
    simp only [mergeEpubRun, hparse, collect_single_ok lc w e hedir himg hmiss,
      writeOut_epub w outputName hosl]
  exact ⟨pdf_entries_out_prefixed lc entries w2,
    (pdf_entries_no_dir lc w entries hnodirP hslN).1,
    (pdf_entries_no_dir lc w entries hnodirP hslN).2,
    epub_entry_success lc w e hedir himg hmiss hsl,
    by rw [hmp], by rw [hmp], by rw [hme], by rw [hme]⟩

/-- Witness for C8 at a filesystem without pdf or epub directories. -/
theorem c8_witness :
    (∀ o ∈ (pdfProcessCsvEntries icuFoldCompare wOutDirs [⟨strL "doc", strL "imgs"⟩]).2,
        ∀ p, o = .success p → (strL "pdf/").isPrefixOf p = true) ∧
    (pdfProcessCsvEntries icuFoldCompare wOutDirs [⟨strL "doc", strL "imgs"⟩]).1 = wOutDirs ∧
    (∀ o ∈ (pdfProcessCsvEntries icuFoldCompare wOutDirs [⟨strL "doc", strL "imgs"⟩]).2,
        ∀ p, o ≠ .success p) ∧
    epubProcessCsvEntry icuFoldCompare wOutDirs ⟨strL "doc", strL "imgs"⟩
      = ({ mkdirRec wOutDirs (strL "epub") with
            outFiles := (strL "epub/" ++ epubOutputName (strL "doc")) :: wOutDirs.outFiles },
         .success (strL "epub/" ++ epubOutputName (strL "doc"))) ∧
    (mergePdfRun icuFoldCompare wOutDirs (strL "nome;caminho\ndoc;imgs") (strL "final")).2 = 0 ∧
    (mergePdfRun icuFoldCompare wOutDirs (strL "nome;caminho\ndoc;imgs") (strL "final")).1.outFiles
      = (strL "pdf/" ++ pdfOutputName (strL "final")) :: wOutDirs.outFiles ∧
    (mergeEpubRun icuFoldCompare wOutDirs (strL "nome;caminho\ndoc;imgs") (strL "final")).2 = 0 ∧
    (mergeEpubRun icuFoldCompare wOutDirs (strL "nome;caminho\ndoc;imgs") (strL "final")).1.outFiles
      = (strL "epub/" ++ epubOutputName (strL "final")) :: wOutDirs.outFiles :=
  c8_output_dir_creation icuFoldCompare wOutDirs wOutDirs [⟨strL "doc", strL "imgs"⟩]
    ⟨strL "doc", strL "imgs"⟩ (strL "nome;caminho\ndoc;imgs") (strL "final")
    (by decide) (by decide) (by decide) (by decide) (by decide) (by decide) (by decide)
    (by rfl)

lemma mkBlock_all_name (name : Str) :
    ∀ (files : List Str) (ii pn : Nat), ∀ im ∈ mkBlock name files ii pn,
      im.folderName = name := by
  intro files
  induction files with
  | nil => intro ii pn im him; cases him
  | cons f fs ih =>
    intro ii pn im him
    rcases List.mem_cons.mp him with rfl | him
    · rfl
    · exact ih (ii + 1) (pn + 1) im him

lemma mkBlock_length (name : Str) :
    ∀ (files : List Str) (ii pn : Nat), (mkBlock name files ii pn).length = files.length := by
  intro files
  induction files with
  | nil => intro ii pn; rfl
  | cons f fs ih =>
    intro ii pn
    rw [mkBlock, List.length_cons, List.length_cons, ih (ii + 1) (pn + 1)]

lemma mkBlock_filter_self (name : Str) (files : List Str) (ii pn : Nat) :
    (mkBlock name files ii pn).filter (fun x => x.folderName == name)
      = mkBlock name files ii pn :=
  List.filter_eq_self.mpr (fun im him => by
    rw [mkBlock_all_name name files ii pn im him]
    simp)

lemma mkBlock_filter_ne (name name' : Str) (hne : name' ≠ name) (files : List Str)
    (ii pn : Nat) :
    (mkBlock name files ii pn).filter (fun x => x.folderName == name') = [] := by
  refine List.filter_eq_nil_iff.mpr (fun im him => ?_)
  rw [mkBlock_all_name name files ii pn im him]
  simp
  exact fun hc => hne hc.symm

lemma buildImageList_filter_notmem (name' : Str) :
    ∀ (folders : List (Str × List Str)) (pn : Nat),
      name' ∉ folders.map Prod.fst →
      (buildImageList folders pn).filter (fun x => x.folderName == name') = [] := by
  intro folders
  induction folders with
  | nil => intro pn _; rfl
  | cons p rest ih =>
    intro pn hmem
    rcases p with ⟨name, files⟩
    have h1 : name' ≠ name := fun hc => hmem (by simp [hc])
    have h2 : name' ∉ rest.map Prod.fst := fun hc => hmem (by simp [hc])
    rw [buildImageList, List.filter_append, mkBlock_filter_ne name name' h1,
      ih (pn + files.length) h2]
    rfl

lemma zipWithBases_mem :
    ∀ (ps : List (Str × List Str)) (b : Nat) (pr : (Str × List Str) × Nat),
      pr ∈ zipWithBases ps b → pr.1 ∈ ps := by
  intro ps
  induction ps with
  | nil => intro b pr hpr; cases hpr
  | cons p rest ih =>
    intro b pr hpr
    rcases List.mem_cons.mp hpr with rfl | hpr
    · simp
    · exact List.mem_cons_of_mem p (ih (b + p.2.length) pr hpr)

lemma buildImageList_filter (folders : List (Str × List Str))
    (hnd : (folders.map Prod.fst).Nodup) :
    ∀ (pn : Nat), ∀ pr ∈ zipWithBases folders pn,
      (buildImageList folders pn).filter (fun x => x.folderName == pr.1.1)
        = mkBlock pr.1.1 pr.1.2 1 pr.2 := by
  induction folders with
  | nil => intro pn pr hpr; cases hpr
  | cons p rest ih =>
    intro pn pr hpr
    rcases p with ⟨name, files⟩
    have hnd' : (name :: rest.map Prod.fst).Nodup := by simpa using hnd
    have hnotin : name ∉ rest.map Prod.fst := (List.nodup_cons.mp hnd').1
    have hndrest : (rest.map Prod.fst).Nodup := (List.nodup_cons.mp hnd').2
    rcases List.mem_cons.mp hpr with rfl | hpr
    · rw [buildImageList, List.filter_append]
      rw [show ((name, files), pn).1.1 = name from rfl,
        show ((name, files), pn).1.2 = files from rfl,
        show ((name, files), pn).2 = pn from rfl]
      rw [mkBlock_filter_self, buildImageList_filter_notmem name rest _ hnotin,
        List.append_nil]
    · have hname' : pr.1.1 ≠ name := by
        intro hc
        apply hnotin
        rw [← hc]
        exact List.mem_map_of_mem Prod.fst (zipWithBases_mem rest _ pr hpr)
      rw [buildImageList, List.filter_append, mkBlock_filter_ne name pr.1.1 hname',
        List.nil_append]
      exact ih hndrest (pn + files.length) pr hpr

lemma tocGo_skip (full : List MImg) :
    ∀ (imgs rest : List MImg) (cur : Str) (fnp po : Nat),
      (∀ im ∈ imgs, im.folderName = cur) →
      tocGo full (imgs ++ rest) cur fnp po = tocGo full rest cur fnp po := by
  intro imgs
  induction imgs with
  | nil => intro rest cur fnp po _; rfl
  | cons im imgs ih =>
    intro rest cur fnp po h
    rw [List.cons_append, tocGo, if_pos (h im (by simp))]
    exact ih rest cur fnp po (fun x hx => h x (List.mem_cons_of_mem im hx))

lemma mkNavPages_mkBlock (name : Str) :
    ∀ (files : List Str) (ii pn po : Nat),
      mkNavPages (mkBlock name files ii pn) po = mkNavPagesE files ii (po + 1) pn := by
  intro files
  induction files with
  | nil => intro ii pn po; rfl
  | cons f fs ih =>
    intro ii pn po
    rw [mkBlock, mkNavPages, mkNavPagesE, ih (ii + 1) (pn + 1) (po + 1)]

lemma tocGo_blocks (full : List MImg) :
    ∀ (rem : List (Str × List Str)) (pn fnp po : Nat) (cur : Str),
      (∀ p ∈ rem, p.2 ≠ []) →
      (cur :: rem.map Prod.fst).Nodup →
      (∀ pr ∈ zipWithBases rem pn,
        full.filter (fun x => x.folderName == pr.1.1) = mkBlock pr.1.1 pr.1.2 1 pr.2) →
      tocGo full (buildImageList rem pn) cur fnp po = expectedNavMap rem fnp po pn := by
  intro rem
  induction rem with
  | nil => intro pn fnp po cur _ _ _; rfl
  | cons p rest ih =>
    intro pn fnp po cur hne hnd hfil
    rcases p with ⟨name, files⟩
    have hcur : name ≠ cur := by
      have h1 := (List.nodup_cons.mp hnd).1
      intro hc
      exact h1 (by simp [hc])
    have hfilhead : full.filter (fun x => x.folderName == name)
        = mkBlock name files 1 pn := hfil ((name, files), pn) (by rw [zipWithBases]; simp)
    cases hfz : files with
    | nil => exact absurd hfz (hne (name, files) (by simp))
    | cons f fs =>
      subst hfz
      rw [buildImageList]
      rw [show mkBlock name (f :: fs) 1 pn
          = ⟨name, 1, pn, pageHtmlName pn⟩ :: mkBlock name fs 2 (pn + 1) from by
        rw [mkBlock]]
      rw [List.cons_append, tocGo, if_neg (by simpa using hcur)]
      have htail : ∀ p ∈ rest, p.2 ≠ [] :=
        fun p hp => hne p (List.mem_cons_of_mem _ hp)
      have hndtail : (name :: rest.map Prod.fst).Nodup := by
        have h2 := (List.nodup_cons.mp hnd).2
        simpa using h2
      have hfiltail : ∀ pr ∈ zipWithBases rest (pn + (f :: fs).length),
          full.filter (fun x => x.folderName == pr.1.1) = mkBlock pr.1.1 pr.1.2 1 pr.2 := by
        intro pr hpr
        refine hfil pr ?_
        rw [zipWithBases]
        exact List.mem_cons_of_mem _ hpr
      simp only [show (⟨name, 1, pn, pageHtmlName pn⟩ : MImg).folderName = name from rfl,
        show (⟨name, 1, pn, pageHtmlName pn⟩ : MImg).htmlFile = pageHtmlName pn from rfl,
        hfilhead, mkNavPages_mkBlock, mkBlock_length]
      rw [tocGo_skip full (mkBlock name fs 2 (pn + 1)) _ name (fnp + 1)
          (po + (f :: fs).length + 1) (mkBlock_all_name name fs 2 (pn + 1))]
      rw [ih (pn + (f :: fs).length) (fnp + 1) (po + (f :: fs).length + 1) name htail
        hndtail hfiltail]
      rw [expectedNavMap]

lemma mkNavPagesE_length :
    ∀ (files : List Str) (ii po pn : Nat), (mkNavPagesE files ii po pn).length = files.length := by
  intro files
  induction files with
  | nil => intro ii po pn; rfl
  | cons f fs ih =>
    intro ii po pn
    rw [mkNavPagesE, List.length_cons, List.length_cons, ih (ii + 1) (po + 1) (pn + 1)]

lemma mkNavPagesE_playOrders :
    ∀ (files : List Str) (ii po pn : Nat),
      (mkNavPagesE files ii po pn).map NavPage.playOrder = List.range' po files.length := by
  intro files
  induction files with
  | nil => intro ii po pn; rfl
  | cons f fs ih =>
    intro ii po pn
    rw [mkNavPagesE, List.map_cons, List.length_cons, List.range'_succ,
      ih (ii + 1) (po + 1) (pn + 1)]

lemma expectedNavMap_length :
    ∀ (rem : List (Str × List Str)) (fnp po pn : Nat),
      (expectedNavMap rem fnp po pn).length = rem.length := by
  intro rem
  induction rem with
  | nil => intro fnp po pn; rfl
  | cons p rest ih =>
    intro fnp po pn
    rcases p with ⟨name, files⟩
    rw [expectedNavMap, List.length_cons, List.length_cons,
      ih (fnp + 1) (po + files.length + 1) (pn + files.length)]

lemma expectedNavMap_labels :
    ∀ (rem : List (Str × List Str)) (fnp po pn : Nat),
      (expectedNavMap rem fnp po pn).map (fun nf => (nf.label, nf.pages.length))
        = rem.map (fun p => (p.1, p.2.length)) := by
  intro rem
  induction rem with
  | nil => intro fnp po pn; rfl
  | cons p rest ih =>
    intro fnp po pn
    rcases p with ⟨name, files⟩
    rw [expectedNavMap, List.map_cons, List.map_cons,
      ih (fnp + 1) (po + files.length + 1) (pn + files.length)]
    simp [mkNavPagesE_length]

lemma expectedNavMap_playOrders :
    ∀ (rem : List (Str × List Str)) (fnp po pn : Nat),
      tocPlayOrders (expectedNavMap rem fnp po pn)
        = List.range' po ((rem.map (fun p => p.2.length + 1)).sum) := by
  intro rem
  induction rem with
  | nil => intro fnp po pn; rfl
  | cons p rest ih =>
    intro fnp po pn
    rcases p with ⟨name, files⟩
    have hflat : tocPlayOrders (expectedNavMap ((name, files) :: rest) fnp po pn)
        = (po :: (mkNavPagesE files 1 (po + 1) pn).map NavPage.playOrder)
          ++ tocPlayOrders (expectedNavMap rest (fnp + 1) (po + files.length + 1)
              (pn + files.length)) := by
      rw [expectedNavMap]
      unfold tocPlayOrders
      rw [List.map_cons, List.flatten_cons]
    rw [hflat, mkNavPagesE_playOrders,
      ih (fnp + 1) (po + files.length + 1) (pn + files.length)]
    have hcons : po :: List.range' (po + 1) files.length
        = List.range' po (files.length + 1) := by
      rw [List.range'_succ]
    rw [hcons]
    have happ := List.range'_append po (files.length + 1)
      ((rest.map (fun p => p.2.length + 1)).sum) 1
    rw [one_mul] at happ
    rw [show po + (files.length + 1) = po + files.length + 1 from by omega] at happ
    rw [happ, List.map_cons, List.sum_cons]
    rw [show (rest.map (fun p => p.2.length + 1)).sum + (files.length + 1)
        = files.length + 1 + (rest.map (fun p => p.2.length + 1)).sum from by omega]

/-- C2 counterexample: two CSV entries that share a folder name collapse
into a single top-level navigation point — the outer loop tracks only the
current folder name and the nested filter selects by name, so the
navigation map does not have one top-level point per source folder. -/
theorem c2_counterexample :
    (mergeTocNavMap (buildImageList
        [(strL "A", [strL "1.jpg"]), (strL "A", [strL "1.jpg"])] 1)).length = 1 ∧
    ([(strL "A", [strL "1.jpg"]), (strL "A", [strL "1.jpg"])]
        : List (Str × List Str)).length = 2 :=
  ⟨by decide, by rfl⟩

/-- C2 amended: for every merged-EPUB image list built from folders in
CSV order (sorted within each folder), provided every folder has at least
one page and the folder names are non-empty and pairwise distinct, the
navigation map is exactly the expected two-level structure: one top-level
point per source folder in CSV order, whose nested points are that
folder's pages in order, and the playOrder values across the document in
order form the consecutive run 1, 2, 3, ... — the running counter
incremented once per folder entry and once per page entry. -/
theorem c2_merged_toc (folders : List (Str × List Str))
    (hne : ∀ p ∈ folders, p.2 ≠ [])
    (hnames : ∀ p ∈ folders, p.1 ≠ [])
    (hnd : (folders.map Prod.fst).Nodup) :
    mergeTocNavMap (buildImageList folders 1) = expectedNavMap folders 1 1 1 ∧
    (mergeTocNavMap (buildImageList folders 1)).length = folders.length ∧
    (mergeTocNavMap (buildImageList folders 1)).map (fun nf => (nf.label, nf.pages.length))
      = folders.map (fun p => (p.1, p.2.length)) ∧
    tocPlayOrders (mergeTocNavMap (buildImageList folders 1))
      = List.range' 1 ((folders.map (fun p => p.2.length + 1)).sum) := by
  have hnod : (([] : Str) :: folders.map Prod.fst).Nodup := by
    refine List.nodup_cons.mpr ⟨?_, hnd⟩
    intro hmem
    rcases List.mem_map.mp hmem with ⟨p, hp, hpeq⟩
    exact hnames p hp hpeq
  have hmain : mergeTocNavMap (buildImageList folders 1) = expectedNavMap folders 1 1 1 := by
    unfold mergeTocNavMap
    exact tocGo_blocks (buildImageList folders 1) folders 1 1 1 [] hne hnod
      (buildImageList_filter folders hnd 1)
  refine ⟨hmain, ?_, ?_, ?_⟩
  · rw [hmain, expectedNavMap_length]
  · rw [hmain, expectedNavMap_labels]
  · rw [hmain, expectedNavMap_playOrders]

/-- Witness for C2 at the specification's example: folder A with two
pages, folder B with one. -/
theorem c2_witness :
    mergeTocNavMap (buildImageList
        [(strL "A", [strL "1.jpg", strL "2.jpg"]), (strL "B", [strL "1.png"])] 1)
      = expectedNavMap
          [(strL "A", [strL "1.jpg", strL "2.jpg"]), (strL "B", [strL "1.png"])] 1 1 1 ∧
    (mergeTocNavMap (buildImageList
        [(strL "A", [strL "1.jpg", strL "2.jpg"]), (strL "B", [strL "1.png"])] 1)).length = 2 ∧
    (mergeTocNavMap (buildImageList
        [(strL "A", [strL "1.jpg", strL "2.jpg"]), (strL "B", [strL "1.png"])] 1)).map
        (fun nf => (nf.label, nf.pages.length))
      = [(strL "A", 2), (strL "B", 1)] ∧
    tocPlayOrders (mergeTocNavMap (buildImageList
        [(strL "A", [strL "1.jpg", strL "2.jpg"]), (strL "B", [strL "1.png"])] 1))
      = [1, 2, 3, 4, 5] := by
  have h := c2_merged_toc
    [(strL "A", [strL "1.jpg", strL "2.jpg"]), (strL "B", [strL "1.png"])]
    (by decide) (by decide) (by decide)
  refine ⟨h.1, ?_, ?_, ?_⟩
  · rw [h.2.1]
    rfl
  · rw [h.2.2.1]
    rfl
  · rw [h.2.2.2]
    rfl
